import Mathlib

/-!
# Verification of the myCalDAV-Server CalDAV core

A shallow embedding of the CalDAV/iCalendar core of the `myCalDAV-Server`
repository (`src/handlers.rs`, `src/models.rs`, `src/services.rs`,
`src/error.rs`), together with theorems settling the frozen claims about the
natural-language specification.

Modelling conventions:
* Rust `&str`/`String` values are modelled as `List Char` (named `Str` below).
  Rust `str::len` counts UTF-8 bytes, so a separate `byteLen` is used wherever
  the source calls `.len()`; byte slicing (`&s[..15]`) is modelled by
  `takeBytes`, which returns `none` exactly when the Rust slice would panic
  (index out of bounds or not a char boundary).
* `uuid::Uuid` is an opaque unique token with an injective canonical string
  form; it is modelled as `Nat` rendered in decimal.  `Uuid::parse_str` (an
  external library call) is modelled as decimal parsing; the claims never
  depend on the concrete UUID grammar, only on parse/render round-tripping
  and on which error kind a parse failure surfaces as.
* `chrono::DateTime<Utc>` is modelled as a year/month/day/hour/minute/second
  record; the format strings `%Y%m%d` and `%Y%m%dT%H%M%S` used by the source
  are modelled as fixed-width digit fields with chrono's calendar validity
  checks (month 1–12, day bounded by the month length with leap years).
  The model covers unsigned years 0–9999 (chrono renders years outside this
  range with an explicit sign, which the source's round-trips cannot handle
  anyway) and seconds 0–59 (no leap-second forms).
* The SQL-backed data layer (`services.rs`) is modelled as a `Store` of
  record lists; `WHERE id = ?` becomes `List.find?` and `WHERE calendar_id
  = ?` becomes `List.filter`.  `Uuid::new_v4` in `create_event` is modelled
  by a fresh-id counter carried in the store.
-/

set_option maxRecDepth 16384

namespace MyCalDAV

/-- Rust string contents, as a list of characters. -/
abbrev Str := List Char

/-- The apostrophe character (written by code point to keep source plain). -/
def aposChar : Char := Char.ofNat 39

/-- The backslash character. -/
def bslash : Char := '\\'

/-! ## Decimal digits (used for the canonical UUID rendering) -/

/-- Numeric value of a digit character. -/
def digitVal (c : Char) : Nat := c.toNat - 48

/-- Fuel-driven digit expansion (structural recursion, so that the kernel can
evaluate it on concrete inputs). -/
def natDigitsGo : Nat → Nat → Str
  | 0, _ => []
  | fuel + 1, n =>
    if n < 10 then [Nat.digitChar n]
    else natDigitsGo fuel (n / 10) ++ [Nat.digitChar (n % 10)]

/-- Decimal digits of a natural number, most significant first. -/
def natDigits (n : Nat) : Str := natDigitsGo (n + 1) n

theorem natDigitsGo_congr :
    ∀ (f1 : Nat) {g n : Nat}, n < f1 → n < g →
      natDigitsGo f1 n = natDigitsGo g n := by
  intro f1
  induction f1 with
  | zero => intro f2 n h1 _; omega
  | succ f1 ih =>
    intro f2 n h1 h2
    cases f2 with
    | zero => omega
    | succ f2 =>
      rw [natDigitsGo, natDigitsGo]
      split
      · rfl
      · next h =>
        have hlt : n / 10 < n := Nat.div_lt_self (by omega) (by omega)
        rw [ih (g := f2) (by omega) (by omega)]

/-- The defining unfolding of `natDigits`. -/
theorem natDigits_unfold (n : Nat) :
    natDigits n = if n < 10 then [Nat.digitChar n]
      else natDigits (n / 10) ++ [Nat.digitChar (n % 10)] := by
  rw [natDigits, natDigitsGo]
  split
  · rfl
  · next h =>
    have hlt : n / 10 < n := Nat.div_lt_self (by omega) (by omega)
    rw [natDigitsGo_congr n (g := n / 10 + 1) (by omega) (by omega)]
    rfl

/-- Parse a non-empty all-digit string as a natural number. -/
def readNat (cs : Str) : Option Nat :=
  if !cs.isEmpty && cs.all Char.isDigit then
    some (cs.foldl (fun a c => a * 10 + digitVal c) 0)
  else none

/-! ## Rust string-operation models -/

/-- `str::split(sep)`: splitting on a character; `"".split(c)` yields `[""]`. -/
def splitChar (sep : Char) : Str → List Str
  | [] => [[]]
  | c :: cs =>
    let r := splitChar sep cs
    if c = sep then [] :: r
    else
      match r with
      | [] => [[c]]
      | h :: t => (c :: h) :: t

/-- ASCII fragment of Rust `char::is_whitespace` (Unicode `White_Space`);
non-ASCII whitespace is outside the scope of this model. -/
def isWsRust (c : Char) : Bool :=
  c = ' ' || c = '\t' || c = '\n' || c = '\r' || c = Char.ofNat 11 || c = Char.ofNat 12

/-- `str::trim_start` for the modelled whitespace set. -/
def trimLeftRust (cs : Str) : Str := cs.dropWhile isWsRust

/-- `str::trim_end` for the modelled whitespace set. -/
def trimRightRust (cs : Str) : Str := (cs.reverse.dropWhile isWsRust).reverse

/-- `str::trim`. -/
def trimRust (cs : Str) : Str := trimRightRust (trimLeftRust cs)

/-- Strip one trailing carriage return (the `\r` part of a `\r\n` line
terminator), as `str::lines` does for every line that ends in `\n`. -/
def stripCR1 (cs : Str) : Str :=
  match cs.getLast? with
  | some c => if c = '\r' then cs.dropLast else cs
  | none => cs

/-- `str::lines`: split at `\n`, strip one `\r` before each `\n`, and drop a
final empty piece (the optional final line terminator).  A last piece not
followed by `\n` keeps any trailing `\r`. -/
def linesRust (cs : Str) : List Str :=
  let ps := splitChar '\n' cs
  let front := ps.dropLast.map stripCR1
  match ps.getLast? with
  | some [] => front
  | some l => front ++ [l]
  | none => front

/-- UTF-8 byte length of a string (Rust `str::len`). -/
def byteLen (cs : Str) : Nat := (cs.map Char.utf8Size).sum

/-- First `n` UTF-8 bytes of a string (Rust `&s[..n]`); `none` exactly when
the Rust slice panics (out of bounds or not on a char boundary). -/
def takeBytes : Nat → Str → Option Str
  | 0, _ => some []
  | _ + 1, [] => none
  | n + 1, c :: rest =>
    if c.utf8Size ≤ n + 1 then (takeBytes (n + 1 - c.utf8Size) rest).map (c :: ·)
    else none

/-- The `.ics` suffix. -/
def icsSuffix : Str := ['.', 'i', 'c', 's']

/-- Fuel-driven repeated suffix stripping (structural recursion). -/
def trimEndIcsGo : Nat → Str → Str
  | 0, cs => cs
  | fuel + 1, cs =>
    if icsSuffix.isSuffixOf cs then trimEndIcsGo fuel (cs.take (cs.length - 4))
    else cs

/-- `str::trim_end_matches(".ics")`: repeatedly remove a trailing `.ics`. -/
def trimEndIcs (cs : Str) : Str := trimEndIcsGo cs.length cs

theorem length_ge_of_ics_suffix {cs : Str} (h : icsSuffix.isSuffixOf cs = true) :
    4 ≤ cs.length := by
  have hs : icsSuffix <:+ cs := by rwa [List.isSuffixOf_iff_suffix] at h
  have := hs.length_le
  simpa [icsSuffix] using this

theorem trimEndIcsGo_nil : ∀ f, trimEndIcsGo f [] = [] := by
  intro f
  cases f with
  | zero => rfl
  | succ f => rw [trimEndIcsGo, if_neg (by decide)]

theorem trimEndIcsGo_congr :
    ∀ (f1 : Nat) {g : Nat} {cs : Str}, cs.length ≤ f1 → cs.length ≤ g →
      trimEndIcsGo f1 cs = trimEndIcsGo g cs := by
  intro f1
  induction f1 with
  | zero =>
    intro f2 cs h1 _
    have hnil : cs = [] := List.eq_nil_of_length_eq_zero (by omega)
    subst hnil
    rw [trimEndIcsGo_nil, trimEndIcsGo_nil]
  | succ f1 ih =>
    intro f2 cs h1 h2
    cases f2 with
    | zero =>
      have hnil : cs = [] := List.eq_nil_of_length_eq_zero (by omega)
      subst hnil
      rw [trimEndIcsGo_nil, trimEndIcsGo_nil]
    | succ f2 =>
      rw [trimEndIcsGo, trimEndIcsGo]
      split
      · next h =>
        have h4 := length_ge_of_ics_suffix h
        have hlen : (cs.take (cs.length - 4)).length = cs.length - 4 := by
          simp
        exact ih (g := f2) (by omega) (by omega)
      · rfl

/-- The defining unfolding of `trimEndIcs`. -/
theorem trimEndIcs_unfold (cs : Str) :
    trimEndIcs cs = if icsSuffix.isSuffixOf cs
      then trimEndIcs (cs.take (cs.length - 4)) else cs := by
  rw [trimEndIcs]
  cases hl : cs.length with
  | zero =>
    have hnil : cs = [] := List.eq_nil_of_length_eq_zero hl
    subst hnil
    rw [if_neg (by decide)]
    rfl
  | succ f =>
    rw [trimEndIcsGo, hl]
    split
    · next h =>
      have h4 := length_ge_of_ics_suffix h
      rw [trimEndIcs]
      have hlen : (cs.take (f + 1 - 4)).length = f + 1 - 4 := by
        rw [List.length_take, hl]
        omega
      rw [hlen]
      have hb1 : (cs.take (f + 1 - 4)).length ≤ f := by
        rw [hlen]
        omega
      have hb2 : (cs.take (f + 1 - 4)).length ≤ f + 1 - 4 := by rw [hlen]
      exact trimEndIcsGo_congr f hb1 hb2
    · rfl

/-- `str::contains(pattern)` for a string pattern: contiguous-substring
test. -/
def containsSub (pat : Str) : Str → Bool
  | [] => pat.isEmpty
  | c :: rest => pat.isPrefixOf (c :: rest) || containsSub pat rest

/-- `str::trim_start_matches('/')`: remove all leading slashes. -/
def dropLeadingSlashes (cs : Str) : Str := cs.dropWhile (· = '/')

/-- `str::replace(target, replacement)` for a single-character pattern. -/
def replaceChar (t : Char) (r : Str) (cs : Str) : Str :=
  cs.flatMap fun c => if c = t then r else [c]

/-! ## iCalendar and XML text escaping (`models.rs: escape_ical_text`,
`handlers.rs: escape_xml`), as the source's chains of `str::replace`. -/

/-- `escape_ical_text`: `\` → `\\`, then `;` → `\;`, `,` → `\,`, `\n` → `\n`
(two characters), in the source's order. -/
def escape_ical_text (cs : Str) : Str :=
  replaceChar '\n' [bslash, 'n']
    (replaceChar ',' [bslash, ',']
      (replaceChar ';' [bslash, ';']
        (replaceChar bslash [bslash, bslash] cs)))

/-- `escape_xml`: `&` → `&amp;`, then `<` → `&lt;`, `>` → `&gt;`,
`"` → `&quot;`, and the apostrophe → `&apos;`, in the source's order. -/
def escape_xml (cs : Str) : Str :=
  replaceChar aposChar "&apos;".data
    (replaceChar '"' "&quot;".data
      (replaceChar '>' "&gt;".data
        (replaceChar '<' "&lt;".data
          (replaceChar '&' "&amp;".data cs))))

/-! ## UTC date-times (model of `chrono::DateTime<Utc>`) -/

/-- A UTC instant at second precision. -/
structure UtcDateTime where
  year : Nat
  month : Nat
  day : Nat
  hour : Nat
  minute : Nat
  second : Nat
deriving DecidableEq, Repr

/-- Gregorian leap-year rule (as in chrono's calendar arithmetic). -/
def isLeapYear (y : Nat) : Bool :=
  (y % 4 = 0 && y % 100 ≠ 0) || y % 400 = 0

/-- Number of days in a month (chrono's calendar validity bound). -/
def daysInMonth (y m : Nat) : Nat :=
  if m = 2 then (if isLeapYear y then 29 else 28)
  else if m = 4 || m = 6 || m = 9 || m = 11 then 30
  else 31

/-- The values a `chrono::DateTime<Utc>` inhabiting this model can take:
a valid calendar date with a 4-digit year and a leap-second-free time. -/
def UtcDateTime.Valid (dt : UtcDateTime) : Prop :=
  dt.year ≤ 9999 ∧ 1 ≤ dt.month ∧ dt.month ≤ 12 ∧
  1 ≤ dt.day ∧ dt.day ≤ daysInMonth dt.year dt.month ∧
  dt.hour ≤ 23 ∧ dt.minute ≤ 59 ∧ dt.second ≤ 59

instance (dt : UtcDateTime) : Decidable dt.Valid := by
  unfold UtcDateTime.Valid; infer_instance

/-- Two zero-padded decimal digits (chrono `%m`, `%d`, `%H`, `%M`, `%S`). -/
def pad2 (n : Nat) : Str := [Nat.digitChar (n / 10 % 10), Nat.digitChar (n % 10)]

/-- Four zero-padded decimal digits (chrono `%Y` for years 0–9999). -/
def pad4 (n : Nat) : Str :=
  [Nat.digitChar (n / 1000 % 10), Nat.digitChar (n / 100 % 10),
   Nat.digitChar (n / 10 % 10), Nat.digitChar (n % 10)]

/-- `dt.format("%Y%m%dT%H%M%SZ")`: the `YYYYMMDDTHHMMSSZ` rendering used by
`to_ical_string` for DTSTART/DTEND. -/
def formatICal (dt : UtcDateTime) : Str :=
  pad4 dt.year ++ pad2 dt.month ++ pad2 dt.day ++ 'T' ::
    (pad2 dt.hour ++ pad2 dt.minute ++ pad2 dt.second ++ ['Z'])

/-- Read one decimal digit character. -/
def readDigit (c : Char) : Option Nat :=
  if c.isDigit then some (digitVal c) else none

/-- Read two decimal digit characters. -/
def read2 (a b : Char) : Option Nat := do
  pure ((← readDigit a) * 10 + (← readDigit b))

/-- Read four decimal digit characters. -/
def read4 (a b c d : Char) : Option Nat := do
  pure ((((← readDigit a) * 10 + (← readDigit b)) * 10 + (← readDigit c)) * 10
    + (← readDigit d))

/-- Calendar validity filter applied by chrono when a parsed
year/month/day/hour/minute/second is assembled into a date-time. -/
def mkDateTime (y mo d h mi s : Nat) : Option UtcDateTime :=
  if 1 ≤ mo ∧ mo ≤ 12 ∧ 1 ≤ d ∧ d ≤ daysInMonth y mo ∧ h ≤ 23 ∧ mi ≤ 59 ∧ s ≤ 59 then
    some ⟨y, mo, d, h, mi, s⟩
  else none

/-- `chrono::NaiveDate::parse_from_str(s, "%Y%m%d")` followed by
`.and_hms_opt(0, 0, 0)` and `.and_utc()`, on the 8-byte branch input. -/
def parseDate8 : Str → Option UtcDateTime
  | [y1, y2, y3, y4, m1, m2, d1, d2] => do
    mkDateTime (← read4 y1 y2 y3 y4) (← read2 m1 m2) (← read2 d1 d2) 0 0 0
  | _ => none

/-- `chrono::NaiveDateTime::parse_from_str(s, "%Y%m%dT%H%M%S")` followed by
`.and_utc()`.  Modelled as the fixed-width 15-character form; chrono's
leniency for shorter numeric fields is outside the model (no claim depends
on it). -/
def parseDT15 : Str → Option UtcDateTime
  | [y1, y2, y3, y4, m1, m2, d1, d2, t, h1, h2, mi1, mi2, s1, s2] =>
    if t = 'T' then do
      mkDateTime (← read4 y1 y2 y3 y4) (← read2 m1 m2) (← read2 d1 d2)
        (← read2 h1 h2) (← read2 mi1 mi2) (← read2 s1 s2)
    else none
  | _ => none

/-- Decidable equality for `Except`, for evaluating handler results on
concrete inputs. -/
instance {α β : Type} [DecidableEq α] [DecidableEq β] : DecidableEq (Except α β) := by
  intro a b
  cases a with
  | error x =>
    cases b with
    | error y =>
      exact decidable_of_iff (x = y)
        ⟨fun h => by rw [h], fun h => by cases h; rfl⟩
    | ok y => exact isFalse (by intro h; cases h)
  | ok x =>
    cases b with
    | error y => exact isFalse (by intro h; cases h)
    | ok y =>
      exact decidable_of_iff (x = y)
        ⟨fun h => by rw [h], fun h => by cases h; rfl⟩

/-! ## Error taxonomy (`error.rs: AppError`, the variants the CalDAV core
produces) -/

/-- `AppError` (the constructors reachable from the CalDAV handlers).
`uuidError` is `AppError::UuidError`, produced through `?` from
`Uuid::parse_str`. -/
inductive AppError
  | authenticationError (msg : Str)
  | validationError (msg : Str)
  | notFoundError (msg : Str)
  | uuidError
deriving DecidableEq, Repr

/-- Outcome of Rust code that can also panic (the datetime parser slices
`&date_str[..15]`, which panics on short or non-boundary input). -/
inductive PanicOr (α : Type)
  | ok (a : α)
  | err (e : AppError)
  | panicked
deriving DecidableEq, Repr

/-! ## iCalendar decoding (`handlers.rs: parse_ical_datetime`,
`parse_icalendar`) -/

/-- `parse_ical_datetime`: trim, then branch on byte length 8 / trailing `Z` /
other, per the source.  The `Z` branch slices the first 15 bytes, panicking
when that slice is impossible. -/
def parse_ical_datetime (s : Str) : PanicOr UtcDateTime :=
  let t := trimRust s
  if byteLen t = 8 then
    match parseDate8 t with
    | some dt => .ok dt
    | none => .err (.validationError "Invalid date format".data)
  else if t.getLast? = some 'Z' then
    match takeBytes 15 t with
    | none => .panicked
    | some u =>
      match parseDT15 u with
      | some dt => .ok dt
      | none => .err (.validationError "Invalid datetime format".data)
  else
    match parseDT15 t with
    | some dt => .ok dt
    | none => .err (.validationError "Invalid datetime format".data)

/-- The accumulating variables of `parse_icalendar`'s line loop. -/
structure ParseSt where
  title : Option Str
  description : Option Str
  location : Option Str
  start_time : Option UtcDateTime
  end_time : Option UtcDateTime
  is_all_day : Bool
deriving DecidableEq, Repr

/-- A decoded new-event draft (`models.rs: NewEvent`). -/
structure NewEvent where
  title : Str
  description : Option Str
  location : Option Str
  start_time : UtcDateTime
  end_time : UtcDateTime
  is_all_day : Bool
deriving DecidableEq, Repr

/-- One iteration of `parse_icalendar`'s loop: trim the line, then the
source's `if`/`else if` chain.  The `VALUE=DATE` test is an `else if`, so it
is only reached by lines that match none of the property prefixes. -/
def parseLine (st : ParseSt) (rawLine : Str) : PanicOr ParseSt :=
  let line := trimRust rawLine
  if "SUMMARY:".data.isPrefixOf line then
    .ok { st with title := some (line.drop 8) }
  else if "DESCRIPTION:".data.isPrefixOf line then
    .ok { st with description := some (line.drop 12) }
  else if "LOCATION:".data.isPrefixOf line then
    .ok { st with location := some (line.drop 9) }
  else if "DTSTART".data.isPrefixOf line then
    match parse_ical_datetime ((splitChar ':' line).getLastD []) with
    | .ok dt => .ok { st with start_time := some dt }
    | .err e => .err e
    | .panicked => .panicked
  else if "DTEND".data.isPrefixOf line then
    match parse_ical_datetime ((splitChar ':' line).getLastD []) with
    | .ok dt => .ok { st with end_time := some dt }
    | .err e => .err e
    | .panicked => .panicked
  else if containsSub "VALUE=DATE".data line then
    .ok { st with is_all_day := true }
  else .ok st

/-- `parse_icalendar`'s loop over `data.lines()`, with `?`-propagation of
datetime errors (and of the panic). -/
def parseLinesLoop : ParseSt → List Str → PanicOr ParseSt
  | st, [] => .ok st
  | st, l :: rest =>
    match parseLine st l with
    | .ok st2 => parseLinesLoop st2 rest
    | .err e => .err e
    | .panicked => .panicked

/-- The initial parse state (all properties absent, all-day false). -/
def initSt : ParseSt := ⟨none, none, none, none, none, false⟩

/-- `parse_icalendar`: run the line loop, then require SUMMARY, DTSTART and
DTEND. -/
def parse_icalendar (data : Str) : PanicOr NewEvent :=
  match parseLinesLoop initSt (linesRust data) with
  | .err e => .err e
  | .panicked => .panicked
  | .ok st =>
    match st.title with
    | none => .err (.validationError "Missing SUMMARY".data)
    | some title =>
      match st.start_time with
      | none => .err (.validationError "Missing DTSTART".data)
      | some stt =>
        match st.end_time with
        | none => .err (.validationError "Missing DTEND".data)
        | some ent =>
          .ok ⟨title, st.description, st.location, stt, ent, st.is_all_day⟩

/-! ## Data model (`models.rs`) -/

/-- `uuid::Uuid`, an opaque unique token (see the module comment). -/
abbrev Uuid := Nat

/-- The canonical string rendering of a UUID (`Uuid::to_string`, via
`Display`), modelled as decimal digits. -/
def uuidToStr (u : Uuid) : Str := natDigits u

/-- `Uuid::parse_str`, surfacing failure as `AppError::UuidError` (the `?`
conversion in the handlers). -/
def uuidParse (cs : Str) : Except AppError Uuid :=
  match readNat cs with
  | some n => .ok n
  | none => .error .uuidError

/-- `models.rs: Calendar`. -/
structure Calendar where
  id : Uuid
  user_id : Uuid
  name : Str
  description : Option Str
  color : Option Str
  is_public : Bool
  created_at : UtcDateTime
  updated_at : UtcDateTime
deriving DecidableEq, Repr

/-- `models.rs: Event`. -/
structure Event where
  id : Uuid
  calendar_id : Uuid
  title : Str
  description : Option Str
  location : Option Str
  start_time : UtcDateTime
  end_time : UtcDateTime
  is_all_day : Bool
  created_at : UtcDateTime
  updated_at : UtcDateTime
deriving DecidableEq, Repr

/-- `models.rs: ICalendarEvent` (the transient VEVENT projection). -/
structure ICalendarEvent where
  uid : Str
  summary : Str
  description : Option Str
  location : Option Str
  dtstart : UtcDateTime
  dtend : UtcDateTime
deriving DecidableEq, Repr

/-- `ICalendarEvent::to_ical_string`: the fixed CRLF template
`BEGIN:VEVENT / UID / SUMMARY / DESCRIPTION / LOCATION / DTSTART / DTEND /
END:VEVENT`, with iCalendar text escaping on SUMMARY/DESCRIPTION/LOCATION
and `unwrap_or_default` (empty string) for the absent options. -/
def ICalendarEvent.to_ical_string (ev : ICalendarEvent) : Str :=
  "BEGIN:VEVENT\r\nUID:".data ++ ev.uid
  ++ "\r\nSUMMARY:".data ++ escape_ical_text ev.summary
  ++ "\r\nDESCRIPTION:".data ++ (ev.description.map escape_ical_text).getD []
  ++ "\r\nLOCATION:".data ++ (ev.location.map escape_ical_text).getD []
  ++ "\r\nDTSTART:".data ++ formatICal ev.dtstart
  ++ "\r\nDTEND:".data ++ formatICal ev.dtend
  ++ "\r\nEND:VEVENT\r\n".data

/-- `impl From<&Event> for ICalendarEvent` (drops `is_all_day` and the
bookkeeping timestamps). -/
def ICalendarEvent.ofEvent (e : Event) : ICalendarEvent :=
  ⟨uuidToStr e.id, e.title, e.description, e.location, e.start_time, e.end_time⟩

/-! ## Data-access layer (`services.rs: CalendarService`, SQL modelled as
list operations; see the module comment) -/

/-- The database state visible to the CalDAV core, plus the fresh identifier
`Uuid::new_v4` hands to the next `create_event` and the `Utc::now()`
timestamp. -/
structure Store where
  calendars : List Calendar
  events : List Event
  freshId : Uuid
  now : UtcDateTime
deriving DecidableEq, Repr

/-- `SELECT ... FROM calendars WHERE id = ?` (`fetch_optional`). -/
def Store.get_calendar_by_id (s : Store) (id : Uuid) : Option Calendar :=
  s.calendars.find? (fun c => c.id == id)

/-- `SELECT ... FROM calendars WHERE user_id = ?` (`fetch_all`). -/
def Store.get_calendars_by_user_id (s : Store) (uid : Uuid) : List Calendar :=
  s.calendars.filter (fun c => c.user_id == uid)

/-- `SELECT ... FROM events WHERE id = ?` (`fetch_optional`). -/
def Store.get_event_by_id (s : Store) (id : Uuid) : Option Event :=
  s.events.find? (fun e => e.id == id)

/-- `SELECT ... FROM events WHERE calendar_id = ?` (`fetch_all`). -/
def Store.get_events_by_calendar_id (s : Store) (cid : Uuid) : List Event :=
  s.events.filter (fun e => e.calendar_id == cid)

/-- `create_event`: INSERT a new row whose id is a fresh `Uuid::new_v4`,
returning the created row. -/
def Store.create_event (s : Store) (cid : Uuid) (ne : NewEvent) : Event × Store :=
  let e : Event :=
    ⟨s.freshId, cid, ne.title, ne.description, ne.location,
     ne.start_time, ne.end_time, ne.is_all_day, s.now, s.now⟩
  (e, { s with events := s.events ++ [e], freshId := s.freshId + 1 })

/-- `delete_event`: `DELETE FROM events WHERE id = ?`. -/
def Store.delete_event (s : Store) (id : Uuid) : Store :=
  { s with events := s.events.filter (fun e => !(e.id == id)) }

/-! ## HTTP responses -/

/-- The parts of an `axum` response the CalDAV handlers set: status code,
`Content-Type`, `ETag` and `Location` headers, and the body. -/
structure HttpResponse where
  status : Nat
  contentType : Option Str := none
  etag : Option Str := none
  location : Option Str := none
  body : Str := []
deriving DecidableEq, Repr

/-- The error message `You don't own this calendar` (apostrophe spliced). -/
def dontOwnMsg : Str := "You don".data ++ aposChar :: "t own this calendar".data

/-- The error message `You don't have access to this event`. -/
def noAccessMsg : Str :=
  "You don".data ++ aposChar :: "t have access to this event".data

/-! ## CalDAV method handlers (`handlers.rs`) -/

/-- The `text/calendar; charset=utf-8` content type. -/
def textCalendarCT : Str := "text/calendar; charset=utf-8".data

/-- The whole-calendar GET response: the full VCALENDAR document with the
calendar name (raw) and every event's VEVENT block. -/
def collectionResponse (calendar : Calendar) (events : List Event) : HttpResponse :=
  { status := 200,
    contentType := some textCalendarCT,
    body :=
      ("BEGIN:VCALENDAR\r\nVERSION:2.0\r\nPRODID:-//My CalDAV Server//EN"
        ++ "\r\nCALSCALE:GREGORIAN\r\nX-WR-CALNAME:").data
      ++ calendar.name ++ "\r\n".data
      ++ (events.map (fun e => (ICalendarEvent.ofEvent e).to_ical_string)).flatten
      ++ "END:VCALENDAR\r\n".data }

/-- The single-event GET response: a one-VEVENT VCALENDAR plus the quoted
event identifier as `ETag`. -/
def eventResponse (event : Event) : HttpResponse :=
  { status := 200,
    contentType := some textCalendarCT,
    etag := some ('"' :: uuidToStr event.id ++ ['"']),
    body :=
      "BEGIN:VCALENDAR\r\nVERSION:2.0\r\nPRODID:-//My CalDAV Server//EN\r\n".data
      ++ (ICalendarEvent.ofEvent event).to_ical_string
      ++ "END:VCALENDAR\r\n".data }

/-- `caldav_get`: path resolution, calendar fetch, owner-or-public check,
then either the whole-calendar VCALENDAR or a single-event VCALENDAR with an
ETag. -/
def caldav_get (s : Store) (user_id : Uuid) (path : Str) :
    Except AppError HttpResponse :=
  let parts := splitChar '/' (dropLeadingSlashes path)
  if parts.length < 2 then .error (.validationError "Invalid calendar path".data)
  else
    match uuidParse (parts.getD 1 []) with
    | .error e => .error e
    | .ok calendar_id =>
      match s.get_calendar_by_id calendar_id with
      | none => .error (.notFoundError "Calendar not found".data)
      | some calendar =>
        if calendar.user_id ≠ user_id ∧ calendar.is_public = false then
          .error (.authenticationError "Access denied".data)
        else if parts.length = 2 ∨ parts.getD 2 [] = [] then
          .ok (collectionResponse calendar (s.get_events_by_calendar_id calendar_id))
        else
          let event_filename := parts.getD 2 []
          let event_id_str := trimEndIcs event_filename
          match uuidParse event_id_str with
          | .error e => .error e
          | .ok event_id =>
            match s.get_event_by_id event_id with
            | none => .error (.notFoundError "Event not found".data)
            | some event => .ok (eventResponse event)

/-- The 201 Created response of `caldav_put`: a `Location` header at the
canonical path of the created event and its quoted identifier as `ETag`. -/
def putResponse (calendar_id : Uuid) (event : Event) : HttpResponse :=
  { status := 201,
    location := some ("/calendars/".data ++ uuidToStr calendar_id
      ++ '/' :: uuidToStr event.id ++ ".ics".data),
    etag := some ('"' :: uuidToStr event.id ++ ['"']),
    body := [] }

/-- `caldav_put`: path resolution, calendar fetch, strict ownership check,
body decode, then `create_event` and a 201 with `Location` and `ETag`.
The third path segment is never read beyond the length check. -/
def caldav_put (s : Store) (user_id : Uuid) (path : Str) (body : Str) :
    PanicOr (HttpResponse × Store) :=
  let parts := splitChar '/' (dropLeadingSlashes path)
  if parts.length < 3 then .err (.validationError "Invalid event path".data)
  else
    match uuidParse (parts.getD 1 []) with
    | .error e => .err e
    | .ok calendar_id =>
      match s.get_calendar_by_id calendar_id with
      | none => .err (.notFoundError "Calendar not found".data)
      | some calendar =>
        if calendar.user_id ≠ user_id then
          .err (.authenticationError dontOwnMsg)
        else
          match parse_icalendar body with
          | .err e => .err e
          | .panicked => .panicked
          | .ok new_event =>
            let (event, s2) := s.create_event calendar_id new_event
            .ok (putResponse calendar_id event, s2)

/-- `caldav_delete`: length check on the split path (the calendar segment is
never parsed or compared — the source ignores it), event fetch by the
suffix-stripped third segment, ownership check against the event's own
calendar, then deletion with 204. -/
def caldav_delete (s : Store) (user_id : Uuid) (path : Str) :
    Except AppError (HttpResponse × Store) :=
  let parts := splitChar '/' (dropLeadingSlashes path)
  if parts.length < 3 then .error (.validationError "Invalid event path".data)
  else
    let event_filename := parts.getD 2 []
    match uuidParse (trimEndIcs event_filename) with
    | .error e => .error e
    | .ok event_id =>
      match s.get_event_by_id event_id with
      | none => .error (.notFoundError "Event not found".data)
      | some event =>
        match s.get_calendar_by_id event.calendar_id with
        | none => .error (.notFoundError "Calendar not found".data)
        | some calendar =>
          if calendar.user_id ≠ user_id then
            .error (.authenticationError noAccessMsg)
          else
            .ok ({ status := 204, body := [] }, s.delete_event event_id)

/-! ## XML multistatus building (`caldav_propfind`, `caldav_report`) -/

/-- The `<d:response>` block PROPFIND emits per owned calendar (the raw-string
template of the source, whitespace-exact).  The display name is interpolated
as `calendar.name`, without `escape_xml`. -/
def propfindResponseBlock (c : Calendar) : Str :=
  "<d:response>\n                <d:href>".data
  ++ ("/calendars/".data ++ uuidToStr c.id ++ "/".data)
  ++ ("</d:href>\n                <d:propstat>\n                    <d:prop>"
      ++ "\n                        <d:resourcetype>"
      ++ "\n                            <d:collection/>"
      ++ "\n                            <cal:calendar/>"
      ++ "\n                        </d:resourcetype>"
      ++ "\n                        <d:displayname>").data
  ++ c.name
  ++ ("</d:displayname>"
      ++ "\n                        <cal:supported-calendar-component-set>"
      ++ "\n                            <cal:comp name=\"VEVENT\"/>"
      ++ "\n                            <cal:comp name=\"VTODO\"/>"
      ++ "\n                        </cal:supported-calendar-component-set>"
      ++ "\n                    </d:prop>"
      ++ "\n                    <d:status>HTTP/1.1 200 OK</d:status>"
      ++ "\n                </d:propstat>"
      ++ "\n            </d:response>").data

/-- The fixed multistatus envelope both PROPFIND and REPORT wrap their
response blocks in. -/
def multistatusWrap (responses : Str) : Str :=
  ("<?xml version=\"1.0\" encoding=\"utf-8\"?>"
    ++ "\n<d:multistatus xmlns:d=\"DAV:\" xmlns:cal=\"urn:ietf:params:xml:ns:caldav\">"
    ++ "\n    ").data
  ++ responses
  ++ "\n</d:multistatus>".data

/-- `caldav_propfind`: one response block per calendar owned by the
authenticated principal, status 207. -/
def caldav_propfind (s : Store) (user_id : Uuid) : HttpResponse :=
  let calendars := s.get_calendars_by_user_id user_id
  { status := 207,
    contentType := some "application/xml; charset=utf-8".data,
    body := multistatusWrap (calendars.map propfindResponseBlock).flatten }

/-- The `<d:response>` block REPORT emits per event: href, quoted
`getetag` equal to the event identifier, and the XML-escaped iCalendar
encoding inside `calendar-data` (whitespace-exact template). -/
def reportResponseBlock (c : Calendar) (e : Event) : Str :=
  "<d:response>\n                    <d:href>".data
  ++ ("/calendars/".data ++ uuidToStr c.id ++ '/' :: uuidToStr e.id ++ ".ics".data)
  ++ ("</d:href>\n                    <d:propstat>"
      ++ "\n                        <d:prop>"
      ++ "\n                            <d:getetag>\"").data
  ++ uuidToStr e.id
  ++ "\"</d:getetag>\n                            <cal:calendar-data>".data
  ++ escape_xml (ICalendarEvent.ofEvent e).to_ical_string
  ++ ("</cal:calendar-data>"
      ++ "\n                        </d:prop>"
      ++ "\n                        <d:status>HTTP/1.1 200 OK</d:status>"
      ++ "\n                    </d:propstat>"
      ++ "\n                </d:response>").data

/-- The response blocks REPORT accumulates: the nested loop over the
principal's calendars and each calendar's events. -/
def reportResponses (s : Store) (user_id : Uuid) : List Str :=
  (s.get_calendars_by_user_id user_id).flatMap fun c =>
    (s.get_events_by_calendar_id c.id).map (reportResponseBlock c)

/-- `caldav_report`: the multistatus of all events in all owned calendars;
the request body is accepted but never read. -/
def caldav_report (s : Store) (user_id : Uuid) (_body : Str) : HttpResponse :=
  { status := 207,
    contentType := some "application/xml; charset=utf-8".data,
    body := multistatusWrap (reportResponses s user_id).flatten }

/-- The CRLF-joined form of a list of lines (the `\r\n`-terminated rendering
the spec describes for VEVENT blocks). -/
def joinCRLF (ls : List Str) : Str := (ls.map (· ++ ['\r', '\n'])).flatten

/-- The four characters `escape_ical_text` escapes. -/
def icalSpecials : Str := [bslash, ';', ',', '\n']

/-- The VEVENT block as a list of lines in the spec's fixed order (before
CRLF termination).  `joinCRLF` of this list is the encoder's output. -/
def icalLines (ev : ICalendarEvent) : List Str :=
  ["BEGIN:VEVENT".data,
   "UID:".data ++ ev.uid,
   "SUMMARY:".data ++ escape_ical_text ev.summary,
   "DESCRIPTION:".data ++ (ev.description.map escape_ical_text).getD [],
   "LOCATION:".data ++ (ev.location.map escape_ical_text).getD [],
   "DTSTART:".data ++ formatICal ev.dtstart,
   "DTEND:".data ++ formatICal ev.dtend,
   "END:VEVENT".data]

/-- Whether a value's last character (if any) is non-whitespace. -/
def lastNotWs (v : Str) : Bool :=
  match v.getLast? with
  | some c => !isWsRust c
  | none => true

/-- The character-level safety condition under which a SUMMARY/DESCRIPTION/
LOCATION value survives the encode–decode round trip: ASCII, free of the
four iCalendar-escaped characters, and not ending in whitespace. -/
def icalSafe (v : Str) : Prop :=
  (∀ c ∈ v, c.toNat < 128 ∧ c ∉ icalSpecials) ∧ lastNotWs v = true

instance (v : Str) : Decidable (icalSafe v) := by
  unfold icalSafe
  infer_instance

/-- The canonical calendar-collection path `/calendars/{calendar_id}`. -/
def calendarPath (cid : Uuid) : Str := "/calendars/".data ++ uuidToStr cid

/-- The canonical event-resource path `/calendars/{calendar_id}/{segment}`. -/
def eventPath (cid : Uuid) (seg : Str) : Str :=
  "/calendars/".data ++ uuidToStr cid ++ '/' :: seg

/-! ## Witness data (concrete stores and inputs used to instantiate the
claim theorems) -/

/-- A fixed timestamp. -/
def wNow : UtcDateTime := ⟨2024, 1, 1, 0, 0, 0⟩

/-- A fixed event time. -/
def wDT : UtcDateTime := ⟨2024, 3, 1, 9, 0, 0⟩

/-- A non-public calendar owned by user 7. -/
def wCalPriv : Calendar := ⟨1, 7, "priv".data, none, none, false, wNow, wNow⟩

/-- A public calendar owned by user 7. -/
def wCalPub : Calendar := ⟨2, 7, "pub".data, none, none, true, wNow, wNow⟩

/-- An event stored in the non-public calendar 1. -/
def wEv : Event :=
  ⟨10, 1, "Standup".data, some "d".data, some "l".data, wDT, wDT, false, wNow, wNow⟩

/-- The witness store: both calendars, one event, fresh id 50. -/
def wStore : Store := ⟨[wCalPriv, wCalPub], [wEv], 50, wNow⟩

/-- An empty store. -/
def emptyStore : Store := ⟨[], [], 0, wNow⟩

/-- A calendar whose display name contains a raw `<`. -/
def w8Cal : Calendar := ⟨3, 7, "a<b".data, none, none, false, wNow, wNow⟩

/-- A store holding only the `<`-named calendar. -/
def w8Store : Store := ⟨[w8Cal], [], 50, wNow⟩

/-- A decodable PUT body. -/
def wBody : Str := "SUMMARY:S\r\nDTSTART:20240301T090000Z\r\nDTEND:20240301T091500Z".data

/-- The draft `wBody` decodes to. -/
def wNe : NewEvent :=
  ⟨"S".data, none, none, ⟨2024, 3, 1, 9, 0, 0⟩, ⟨2024, 3, 1, 9, 15, 0⟩, false⟩

/-- A title exercising all four iCalendar-escaped characters. -/
def cexTitle : Str := [';', ',', bslash, '\n']

/-- The event whose title is `cexTitle`. -/
def cexEvent : Event :=
  ⟨10, 1, cexTitle, some "d".data, some "l".data, wDT, wDT, false, wNow, wNow⟩

/-- An iCalendar body carrying `VALUE=DATE` on its DTSTART/DTEND lines. -/
def c4Body : Str :=
  "SUMMARY:X\r\nDTSTART;VALUE=DATE:20240115\r\nDTEND;VALUE=DATE:20240116".data

/-- What `c4Body` decodes to (note the all-day flag). -/
def c4Decoded : NewEvent :=
  ⟨"X".data, none, none, ⟨2024, 1, 15, 0, 0, 0⟩, ⟨2024, 1, 16, 0, 0, 0⟩, false⟩

/-- An iCalendar body whose `VALUE=DATE` sits on an unrecognized line. -/
def c4BodyX : Str :=
  "X-FOO;VALUE=DATE:1\r\nSUMMARY:X\r\nDTSTART:20240115\r\nDTEND:20240116".data

/-! ## Definitions modelled from the spec (for refinement comparisons) -/

/-- Modelled from the spec: the resolver of §4.2 as the spec words it —
"Strips a single leading `/`" (the source strips all of them). -/
def stripOneLeadingSlashSpec (p : Str) : Str :=
  match p with
  | '/' :: rest => rest
  | p => p

/-- Modelled from the spec: the path segments after the spec's single-slash
strip and split. -/
def specSegments (p : Str) : List Str := splitChar '/' (stripOneLeadingSlashSpec p)

/-- Modelled from the spec: per-character XML escaping of "the five XML
special characters (`&`, `<`, `>`, `"`, `'`)". -/
def escCharSpec (c : Char) : Str :=
  if c = '&' then "&amp;".data
  else if c = '<' then "&lt;".data
  else if c = '>' then "&gt;".data
  else if c = '"' then "&quot;".data
  else if c = aposChar then "&apos;".data
  else [c]

/-- Modelled from the spec: the PROPFIND response block as §4.4 describes it,
with the display name escaped before insertion (the source inserts it raw). -/
def propfindBlockEscapedSpec (c : Calendar) : Str :=
  "<d:response>\n                <d:href>".data
  ++ ("/calendars/".data ++ uuidToStr c.id ++ "/".data)
  ++ ("</d:href>\n                <d:propstat>\n                    <d:prop>"
      ++ "\n                        <d:resourcetype>"
      ++ "\n                            <d:collection/>"
      ++ "\n                            <cal:calendar/>"
      ++ "\n                        </d:resourcetype>"
      ++ "\n                        <d:displayname>").data
  ++ escape_xml c.name
  ++ ("</d:displayname>"
      ++ "\n                        <cal:supported-calendar-component-set>"
      ++ "\n                            <cal:comp name=\"VEVENT\"/>"
      ++ "\n                            <cal:comp name=\"VTODO\"/>"
      ++ "\n                        </cal:supported-calendar-component-set>"
      ++ "\n                    </d:prop>"
      ++ "\n                    <d:status>HTTP/1.1 200 OK</d:status>"
      ++ "\n                </d:propstat>"
      ++ "\n            </d:response>").data

/-- Modelled from the spec: `caldav_propfind` as §4.4 describes it (escaped
display names; everything else as the source). -/
def caldav_propfind_escapedSpec (s : Store) (user_id : Uuid) : HttpResponse :=
  { status := 207,
    contentType := some "application/xml; charset=utf-8".data,
    body := multistatusWrap
      ((s.get_calendars_by_user_id user_id).map propfindBlockEscapedSpec).flatten }

/-- The property-prefix disjunction of `parseLine`'s `else if` chain: a
trimmed line starting with one of the five recognized keys. -/
def hasPropPrefix (line : Str) : Prop :=
  "SUMMARY:".data.isPrefixOf line = true ∨ "DESCRIPTION:".data.isPrefixOf line = true
    ∨ "LOCATION:".data.isPrefixOf line = true ∨ "DTSTART".data.isPrefixOf line = true
    ∨ "DTEND".data.isPrefixOf line = true

/-! ## Helper lemmas: digits and the UUID rendering -/

theorem digitChar_isDigit : ∀ d, d < 10 → (Nat.digitChar d).isDigit = true := by
  decide

theorem digitVal_digitChar : ∀ d, d < 10 → digitVal (Nat.digitChar d) = d := by
  decide

theorem natDigits_ne_nil (n : Nat) : natDigits n ≠ [] := by
  rw [natDigits_unfold]
  split <;> simp

theorem natDigits_all_digit (n : Nat) : ∀ c ∈ natDigits n, c.isDigit = true := by
  induction n using Nat.strong_induction_on with
  | _ n ih =>
    rw [natDigits_unfold]
    split
    · simp_all [digitChar_isDigit]
    · intro c hc
      rw [List.mem_append] at hc
      rcases hc with hc | hc
      · exact ih (n / 10) (Nat.div_lt_self (by omega) (by omega)) c hc
      · simp at hc
        subst hc
        exact digitChar_isDigit _ (Nat.mod_lt _ (by omega))

theorem foldl_natDigits (n : Nat) :
    (natDigits n).foldl (fun a c => a * 10 + digitVal c) 0 = n := by
  induction n using Nat.strong_induction_on with
  | _ n ih =>
    rw [natDigits_unfold]
    split
    · next h => simp [digitVal_digitChar n h]
    · next h =>
      rw [List.foldl_append, ih (n / 10) (Nat.div_lt_self (by omega) (by omega))]
      simp [digitVal_digitChar (n % 10) (Nat.mod_lt _ (by omega))]
      omega

theorem readNat_natDigits (n : Nat) : readNat (natDigits n) = some n := by
  rw [readNat, if_pos, foldl_natDigits]
  rw [Bool.and_eq_true, List.all_eq_true]
  exact ⟨by simpa using natDigits_ne_nil n, fun c hc => natDigits_all_digit n c hc⟩

theorem uuidParse_uuidToStr (u : Uuid) : uuidParse (uuidToStr u) = .ok u := by
  rw [uuidParse, uuidToStr, readNat_natDigits]

theorem not_mem_natDigits {c : Char} (h : c.isDigit = false) (n : Nat) :
    c ∉ natDigits n := by
  intro hc
  rw [natDigits_all_digit n c hc] at h
  cases h

theorem uuidToStr_ne_nil (n : Nat) : uuidToStr n ≠ [] := natDigits_ne_nil n

theorem uuidToStr_all_digit (n : Nat) : ∀ c ∈ uuidToStr n, c.isDigit = true :=
  natDigits_all_digit n

theorem not_mem_uuidToStr {c : Char} (h : c.isDigit = false) (n : Nat) :
    c ∉ uuidToStr n := not_mem_natDigits h n

/-! ## Helper lemmas: character classes and trimming -/

theorem isWs_of_isDigit {c : Char} (h : c.isDigit = true) : isWsRust c = false := by
  have hv : 48 ≤ c.val.toNat ∧ c.val.toNat ≤ 57 := by
    simp only [Char.isDigit, Bool.and_eq_true, decide_eq_true_eq] at h
    exact ⟨h.1, h.2⟩
  simp only [isWsRust, Bool.or_eq_false_iff, decide_eq_false_iff_not]
  refine ⟨⟨⟨⟨⟨?_, ?_⟩, ?_⟩, ?_⟩, ?_⟩, ?_⟩ <;>
    (intro he; subst he; revert hv; decide)

theorem trimLeft_eq_self {cs : Str}
    (h : ∀ c, cs.head? = some c → isWsRust c = false) : trimLeftRust cs = cs := by
  cases cs with
  | nil => rfl
  | cons c t =>
    have := h c rfl
    simp [trimLeftRust, List.dropWhile_cons, this]

theorem trimRight_eq_self {cs : Str}
    (h : ∀ c, cs.getLast? = some c → isWsRust c = false) : trimRightRust cs = cs := by
  rw [trimRightRust]
  have h2 : ∀ c, cs.reverse.head? = some c → isWsRust c = false := by
    intro c hc
    exact h c (by rwa [List.head?_reverse] at hc)
  cases hr : cs.reverse with
  | nil =>
    have hcs : cs = [] := by simpa using congrArg List.reverse hr
    subst hcs; rfl
  | cons c t =>
    have hw := h2 c (by rw [hr]; rfl)
    rw [List.dropWhile_cons, hw]
    have hcs : (c :: t).reverse = cs := by
      have h3 := congrArg List.reverse hr
      simpa using h3.symm
    simpa using hcs

theorem trimRust_eq_self {cs : Str}
    (hh : ∀ c, cs.head? = some c → isWsRust c = false)
    (hl : ∀ c, cs.getLast? = some c → isWsRust c = false) : trimRust cs = cs := by
  rw [trimRust, trimLeft_eq_self hh, trimRight_eq_self hl]

/-! ## Helper lemmas: splitting and lines -/

theorem splitChar_ne_nil (sep : Char) (cs : Str) : splitChar sep cs ≠ [] := by
  cases cs with
  | nil => simp [splitChar]
  | cons c t =>
    rw [splitChar]
    split
    · simp
    · split <;> simp

theorem splitChar_not_mem {sep : Char} {cs : Str} (h : sep ∉ cs) :
    splitChar sep cs = [cs] := by
  induction cs with
  | nil => rfl
  | cons c t ih =>
    have hcs : c ≠ sep := fun he => h (by simp [he])
    have ht : sep ∉ t := fun he => h (by simp [he])
    rw [splitChar]
    simp only [if_neg hcs, ih ht]

theorem splitChar_append {sep : Char} {a : Str} (h : sep ∉ a) (b : Str) :
    splitChar sep (a ++ sep :: b) = a :: splitChar sep b := by
  induction a with
  | nil => simp [splitChar]
  | cons c t ih =>
    have hcs : c ≠ sep := fun he => h (by simp [he])
    have ht : sep ∉ t := fun he => h (by simp [he])
    rw [List.cons_append, splitChar]
    simp only [if_neg hcs, ih ht]

theorem splitChar_joinCRLF {ls : List Str} (h : ∀ l ∈ ls, ('\n') ∉ l) :
    splitChar '\n' (joinCRLF ls) = ls.map (· ++ ['\r']) ++ [[]] := by
  induction ls with
  | nil => rfl
  | cons l rest ih =>
    have hl : ('\n') ∉ l ++ ['\r'] := by
      intro hm
      rcases List.mem_append.1 hm with hm | hm
      · exact h l (by simp) hm
      · simp at hm
    have hstep : splitChar '\n' (joinCRLF (l :: rest)) =
        (l ++ ['\r']) :: splitChar '\n' (joinCRLF rest) := by
      have : joinCRLF (l :: rest) = (l ++ ['\r']) ++ '\n' :: joinCRLF rest := by
        simp [joinCRLF]
      rw [this, splitChar_append hl]
    rw [hstep, ih (fun x hx => h x (by simp [hx]))]
    simp

theorem stripCR1_append_cr (l : Str) : stripCR1 (l ++ ['\r']) = l := by
  rw [stripCR1]
  rw [List.getLast?_append_of_ne_nil l (by simp)]
  simp

theorem linesRust_joinCRLF {ls : List Str} (h : ∀ l ∈ ls, ('\n') ∉ l) :
    linesRust (joinCRLF ls) = ls := by
  rw [linesRust, splitChar_joinCRLF h]
  have hlast : (ls.map (· ++ ['\r']) ++ [List.nil (α := Char)]).getLast? = some [] := by
    rw [List.getLast?_append_of_ne_nil _ (by simp)]
    rfl
  rw [hlast]
  simp only [List.dropLast_concat]
  rw [List.map_map]
  have : (stripCR1 ∘ fun l => l ++ ['\r']) = id := by
    funext l
    simp [stripCR1_append_cr]
  rw [this, List.map_id]

/-! ## Helper lemmas: substring containment -/

theorem subset_of_containsSub {pat cs : Str} (h : containsSub pat cs = true) :
    ∀ c ∈ pat, c ∈ cs := by
  induction cs with
  | nil =>
    intro c hc
    rw [containsSub] at h
    rw [List.isEmpty_iff] at h
    subst h
    cases hc
  | cons x rest ih =>
    intro c hc
    rw [containsSub, Bool.or_eq_true] at h
    rcases h with h | h
    · have hp : pat <+: x :: rest := by rwa [List.isPrefixOf_iff_prefix] at h
      exact hp.sublist.subset hc
    · exact List.mem_cons_of_mem x (ih h c hc)

theorem containsSub_eq_false {pat cs : Str} {c : Char} (hc : c ∈ pat)
    (hcs : c ∉ cs) : containsSub pat cs = false := by
  rw [Bool.eq_false_iff]
  intro h
  exact hcs (subset_of_containsSub h c hc)

/-! ## Helper lemmas: escaping -/

theorem replaceChar_append (t : Char) (r : Str) (a b : Str) :
    replaceChar t r (a ++ b) = replaceChar t r a ++ replaceChar t r b := by
  simp [replaceChar]

theorem replaceChar_eq_self {t : Char} {r cs : Str} (h : t ∉ cs) :
    replaceChar t r cs = cs := by
  induction cs with
  | nil => rfl
  | cons c rest ih =>
    have hc : c ≠ t := fun he => h (by simp [he])
    have hrest : t ∉ rest := fun he => h (by simp [he])
    simp [replaceChar, hc, ih hrest]
    rw [← replaceChar, ih hrest]

theorem escape_ical_text_eq_self {cs : Str} (h : ∀ c ∈ icalSpecials, c ∉ cs) :
    escape_ical_text cs = cs := by
  rw [escape_ical_text]
  rw [replaceChar_eq_self (h bslash (by simp [icalSpecials]))]
  rw [replaceChar_eq_self (h ';' (by simp [icalSpecials]))]
  rw [replaceChar_eq_self (h ',' (by simp [icalSpecials]))]
  rw [replaceChar_eq_self (h '\n' (by simp [icalSpecials]))]

theorem mem_replaceChar {t : Char} {r cs : Str} {x : Char}
    (hx : x ∈ replaceChar t r cs) : x ∈ r ∨ (x ∈ cs ∧ x ≠ t) := by
  rw [replaceChar, List.mem_flatMap] at hx
  obtain ⟨c, hc, hxc⟩ := hx
  by_cases he : c = t
  · rw [if_pos he] at hxc
    exact Or.inl hxc
  · rw [if_neg he] at hxc
    simp at hxc
    subst hxc
    exact Or.inr ⟨hc, he⟩

theorem newline_not_mem_escape_ical (cs : Str) : ('\n') ∉ escape_ical_text cs := by
  intro hx
  rw [escape_ical_text] at hx
  rcases mem_replaceChar hx with hx | ⟨_, hne⟩
  · simp [bslash] at hx
  · exact hne rfl

/-! ## Helper lemmas: datetime formatting and parsing -/

theorem digitChar_mod_isDigit (m : Nat) : (Nat.digitChar (m % 10)).isDigit = true :=
  digitChar_isDigit _ (Nat.mod_lt _ (by omega))

theorem digitVal_digitChar_mod (m : Nat) :
    digitVal (Nat.digitChar (m % 10)) = m % 10 :=
  digitVal_digitChar _ (Nat.mod_lt _ (by omega))

theorem utf8Size_digitChar_mod (m : Nat) : (Nat.digitChar (m % 10)).utf8Size = 1 := by
  have h := Nat.mod_lt m (y := 10) (by omega)
  revert h
  generalize m % 10 = d
  revert d
  decide

theorem pad4_digits (n : Nat) : ∀ c ∈ pad4 n, c.isDigit = true := by
  intro c hc
  simp only [pad4, List.mem_cons, List.not_mem_nil, or_false] at hc
  rcases hc with h | h | h | h <;> (subst h; exact digitChar_mod_isDigit _)

theorem pad2_digits (n : Nat) : ∀ c ∈ pad2 n, c.isDigit = true := by
  intro c hc
  simp only [pad2, List.mem_cons, List.not_mem_nil, or_false] at hc
  rcases hc with h | h <;> (subst h; exact digitChar_mod_isDigit _)

theorem formatICal_chars {dt : UtcDateTime} :
    ∀ c ∈ formatICal dt, c.isDigit = true ∨ c = 'T' ∨ c = 'Z' := by
  intro c hc
  rw [formatICal] at hc
  rcases List.mem_append.1 hc with h1 | h1
  · rcases List.mem_append.1 h1 with h2 | h2
    · rcases List.mem_append.1 h2 with h3 | h3
      · exact Or.inl (pad4_digits _ _ h3)
      · exact Or.inl (pad2_digits _ _ h3)
    · exact Or.inl (pad2_digits _ _ h2)
  · rcases List.mem_cons.1 h1 with h2 | h2
    · exact Or.inr (Or.inl h2)
    · rcases List.mem_append.1 h2 with h3 | h3
      · rcases List.mem_append.1 h3 with h4 | h4
        · rcases List.mem_append.1 h4 with h5 | h5
          · exact Or.inl (pad2_digits _ _ h5)
          · exact Or.inl (pad2_digits _ _ h5)
        · exact Or.inl (pad2_digits _ _ h4)
      · right; right; simpa using h3

theorem not_mem_formatICal {dt : UtcDateTime} {x : Char} (hd : x.isDigit = false)
    (hT : x ≠ 'T') (hZ : x ≠ 'Z') : x ∉ formatICal dt := by
  intro hx
  rcases formatICal_chars x hx with h | h | h
  · rw [h] at hd; cases hd
  · exact hT h
  · exact hZ h

theorem formatICal_utf8Size {dt : UtcDateTime} : ∀ c ∈ formatICal dt, c.utf8Size = 1 := by
  intro c hc
  rcases formatICal_chars c hc with h | h | h
  · have hv : 48 ≤ c.val.toNat ∧ c.val.toNat ≤ 57 := by
      simp only [Char.isDigit, Bool.and_eq_true, decide_eq_true_eq] at h
      exact ⟨h.1, h.2⟩
    rw [Char.utf8Size]
    have h1 : c.val ≤ 0x7F := by
      rw [UInt32.le_def, BitVec.le_def]
      have : c.val.toNat ≤ 127 := by omega
      simpa [UInt32.toNat] using this
    simp [h1]
  · subst h; rfl
  · subst h; rfl

theorem byteLen_eq_length {cs : Str} (h : ∀ c ∈ cs, c.utf8Size = 1) :
    byteLen cs = cs.length := by
  induction cs with
  | nil => rfl
  | cons c t ih =>
    rw [byteLen, List.map_cons, List.sum_cons, h c (by simp)]
    rw [byteLen] at ih
    rw [ih (fun x hx => h x (by simp [hx]))]
    simp only [List.length_cons]
    omega

theorem formatICal_length (dt : UtcDateTime) : (formatICal dt).length = 16 := by
  simp [formatICal, pad4, pad2]

theorem takeBytes_all_ones :
    ∀ (n : Nat) (cs : Str), (∀ c ∈ cs, c.utf8Size = 1) → n ≤ cs.length →
      takeBytes n cs = some (cs.take n) := by
  intro n
  induction n with
  | zero => intro cs _ _; simp [takeBytes]
  | succ n ih =>
    intro cs hall hlen
    cases cs with
    | nil => simp at hlen
    | cons c t =>
      rw [takeBytes]
      have hc : c.utf8Size = 1 := hall c (by simp)
      rw [hc, if_pos (by omega)]
      have : n + 1 - 1 = n := by omega
      rw [this, ih t (fun x hx => hall x (by simp [hx])) (by simpa using hlen)]
      rfl

theorem two_digit_id {m : Nat} (h : m ≤ 99) : m / 10 % 10 * 10 + m % 10 = m := by
  omega

theorem four_digit_id {m : Nat} (h : m ≤ 9999) :
    ((m / 1000 % 10 * 10 + m / 100 % 10) * 10 + m / 10 % 10) * 10 + m % 10 = m := by
  have e2 : m / 100 / 10 = m / 1000 := by rw [Nat.div_div_eq_div_mul]
  have e3 : m / 10 / 10 = m / 100 := by rw [Nat.div_div_eq_div_mul]
  omega

theorem daysInMonth_le (y m : Nat) : daysInMonth y m ≤ 31 := by
  rw [daysInMonth]
  split_ifs <;> omega

theorem parseDT15_pads {dt : UtcDateTime} (hv : dt.Valid) :
    parseDT15 (pad4 dt.year ++ pad2 dt.month ++ pad2 dt.day ++ 'T' ::
      (pad2 dt.hour ++ pad2 dt.minute ++ pad2 dt.second)) = some dt := by
  obtain ⟨h1, h2, h3, h4, h5, h6, h7, h8⟩ := hv
  simp only [pad4, pad2, List.cons_append, List.nil_append]
  rw [parseDT15]
  simp only [if_pos rfl]
  simp only [read4, read2, readDigit, digitChar_mod_isDigit, if_pos,
    digitVal_digitChar_mod, Option.pure_def, Option.bind_some, Option.bind_eq_bind,
    Option.some_bind]
  have hdle := daysInMonth_le dt.year dt.month
  rw [four_digit_id h1, two_digit_id (show dt.month ≤ 99 by omega),
    two_digit_id (show dt.day ≤ 99 by omega),
    two_digit_id (show dt.hour ≤ 99 by omega),
    two_digit_id (show dt.minute ≤ 99 by omega),
    two_digit_id (show dt.second ≤ 99 by omega)]
  rw [mkDateTime, if_pos (by exact ⟨h2, h3, h4, h5, h6, h7, h8⟩)]

theorem parse_ical_datetime_format {dt : UtcDateTime} (hv : dt.Valid) :
    parse_ical_datetime (formatICal dt) = .ok dt := by
  have htrim : trimRust (formatICal dt) = formatICal dt := by
    apply trimRust_eq_self
    · intro c hc
      have hcc : c = Nat.digitChar (dt.year / 1000 % 10) := by
        have := hc
        simp only [formatICal, pad4, List.cons_append, List.head?_cons,
          Option.some_inj] at this
        exact this.symm
      subst hcc
      exact isWs_of_isDigit (digitChar_mod_isDigit _)
    · intro c hc
      rw [formatICal, List.getLast?_append_of_ne_nil _ (by simp)] at hc
      simp only [List.getLast?_cons, List.getLast?_append_of_ne_nil,
        ne_eq, not_false_eq_true] at hc
      have : c = 'Z' := by
        have h2 : (pad2 dt.hour ++ pad2 dt.minute ++ pad2 dt.second ++
            ['Z']).getLast? = some 'Z' := by
          rw [List.getLast?_append_of_ne_nil _ (by simp)]
          rfl
        rw [h2] at hc
        exact (Option.some_inj.1 hc).symm
      subst this
      decide
  rw [parse_ical_datetime]
  simp only [htrim]
  rw [byteLen_eq_length formatICal_utf8Size, formatICal_length]
  rw [if_neg (by omega)]
  have hlast : (formatICal dt).getLast? = some 'Z' := by
    rw [formatICal, List.getLast?_append_of_ne_nil _ (by simp)]
    rfl
  rw [if_pos hlast]
  rw [takeBytes_all_ones 15 _ formatICal_utf8Size (by rw [formatICal_length]; omega)]
  have htake : (formatICal dt).take 15 =
      pad4 dt.year ++ pad2 dt.month ++ pad2 dt.day ++ 'T' ::
        (pad2 dt.hour ++ pad2 dt.minute ++ pad2 dt.second) := by
    simp [formatICal, pad4, pad2]
  simp only [htake, parseDT15_pads hv]

/-! ## Helper lemmas: the encoder's line structure -/

theorem to_ical_string_eq_joinCRLF (ev : ICalendarEvent) :
    ev.to_ical_string = joinCRLF (icalLines ev) := by
  have h1 : ("BEGIN:VEVENT\r\nUID:" : String).data =
      "BEGIN:VEVENT".data ++ '\r' :: '\n' :: "UID:".data := rfl
  have h2 : ("\r\nSUMMARY:" : String).data = '\r' :: '\n' :: "SUMMARY:".data := rfl
  have h3 : ("\r\nDESCRIPTION:" : String).data =
      '\r' :: '\n' :: "DESCRIPTION:".data := rfl
  have h4 : ("\r\nLOCATION:" : String).data = '\r' :: '\n' :: "LOCATION:".data := rfl
  have h5 : ("\r\nDTSTART:" : String).data = '\r' :: '\n' :: "DTSTART:".data := rfl
  have h6 : ("\r\nDTEND:" : String).data = '\r' :: '\n' :: "DTEND:".data := rfl
  have h7 : ("\r\nEND:VEVENT\r\n" : String).data =
      '\r' :: '\n' :: ("END:VEVENT".data ++ ['\r', '\n']) := rfl
  rw [ICalendarEvent.to_ical_string, joinCRLF, icalLines]
  rw [h1, h2, h3, h4, h5, h6, h7]
  simp [List.append_assoc]

theorem icalLines_no_newline (ev : ICalendarEvent) (huid : ('\n') ∉ ev.uid) :
    ∀ l ∈ icalLines ev, ('\n') ∉ l := by
  intro l hl
  have hfmt : ∀ dt : UtcDateTime, ('\n') ∉ formatICal dt := fun dt =>
    not_mem_formatICal (by decide) (by decide) (by decide)
  have hesc : ∀ v, ('\n') ∉ escape_ical_text v := newline_not_mem_escape_ical
  have hopt : ∀ o : Option Str, ('\n') ∉ (o.map escape_ical_text).getD [] := by
    intro o
    cases o with
    | none => simp
    | some v => simpa using hesc v
  simp only [icalLines, List.mem_cons, List.not_mem_nil, or_false] at hl
  rcases hl with h | h | h | h | h | h | h | h <;> subst h <;>
    first
      | decide
      | (intro hm
         rcases List.mem_append.1 hm with hm | hm
         · revert hm; decide
         · first
             | exact huid hm
             | exact hesc _ hm
             | exact hopt _ hm
             | exact hfmt _ hm)

/-! ## Helper lemmas: evaluating the decoder on encoder lines -/

theorem parseLine_begin (st : ParseSt) : parseLine st "BEGIN:VEVENT".data = .ok st := rfl

theorem parseLine_endline (st : ParseSt) : parseLine st "END:VEVENT".data = .ok st := rfl

theorem isPrefixOf_append_self (l t : Str) : l.isPrefixOf (l ++ t) = true := by
  rw [List.isPrefixOf_iff_prefix]
  exact List.prefix_append l t

theorem parseLine_uid (n : Nat) (st : ParseSt) :
    parseLine st ("UID:".data ++ uuidToStr n) = .ok st := by
  have hlast : ∀ c, ("UID:".data ++ uuidToStr n).getLast? = some c → isWsRust c = false := by
    intro c hc
    rw [List.getLast?_append_of_ne_nil _ (uuidToStr_ne_nil n)] at hc
    have hmem : c ∈ uuidToStr n := List.mem_of_mem_getLast? (by rw [hc]; rfl)
    exact isWs_of_isDigit (uuidToStr_all_digit n c hmem)
  have htrim : trimRust ("UID:".data ++ uuidToStr n) = "UID:".data ++ uuidToStr n :=
    trimRust_eq_self (by intro c hc; cases hc; decide) hlast
  have hcont : containsSub "VALUE=DATE".data ("UID:".data ++ uuidToStr n) = false := by
    apply containsSub_eq_false (c := '=') (by decide)
    intro hm
    rcases List.mem_append.1 hm with hm | hm
    · revert hm; decide
    · exact not_mem_uuidToStr (by decide) n hm
  rw [parseLine]
  simp only [htrim, hcont]
  rfl

theorem icalSafe_escape_eq {v : Str} (h : icalSafe v) : escape_ical_text v = v :=
  escape_ical_text_eq_self (fun c hc hv => ((h.1 c hv).2 hc))

theorem icalSafe_last {v : Str} (h : icalSafe v) :
    ∀ c, v.getLast? = some c → isWsRust c = false := by
  intro c hc
  have h2 := h.2
  rw [lastNotWs, hc] at h2
  simpa using h2

theorem trim_key_value {key v : Str} {c0 : Char} (hk : key.head? = some c0)
    (h0 : isWsRust c0 = false) (hkl : ∀ c, key.getLast? = some c → isWsRust c = false)
    (hsafe : ∀ c, v.getLast? = some c → isWsRust c = false) :
    trimRust (key ++ v) = key ++ v := by
  apply trimRust_eq_self
  · intro c hc
    cases key with
    | nil => cases hk
    | cons k t =>
      rw [List.cons_append, List.head?_cons] at hc
      cases hc
      cases hk
      exact h0
  · intro c hc
    cases hv : v with
    | nil =>
      subst hv
      rw [List.append_nil] at hc
      exact hkl c hc
    | cons x xs =>
      rw [List.getLast?_append_of_ne_nil _ (by simp [hv])] at hc
      exact hsafe c (hv ▸ hc)

theorem parseLine_summary {v : Str} (hsafe : icalSafe v) (st : ParseSt) :
    parseLine st ("SUMMARY:".data ++ v) = .ok { st with title := some v } := by
  have htrim : trimRust ("SUMMARY:".data ++ v) = "SUMMARY:".data ++ v :=
    trim_key_value rfl (by decide) (by intro c hc; cases hc; decide) (icalSafe_last hsafe)
  rw [parseLine]
  simp only [htrim, isPrefixOf_append_self, if_pos rfl]
  rw [show (8 : Nat) = ("SUMMARY:".data).length from rfl, List.drop_left]
  simp

theorem parseLine_description {v : Str} (hsafe : icalSafe v) (st : ParseSt) :
    parseLine st ("DESCRIPTION:".data ++ v) = .ok { st with description := some v } := by
  have htrim : trimRust ("DESCRIPTION:".data ++ v) = "DESCRIPTION:".data ++ v :=
    trim_key_value rfl (by decide) (by intro c hc; cases hc; decide) (icalSafe_last hsafe)
  have hns : ("SUMMARY:".data).isPrefixOf ("DESCRIPTION:".data ++ v) = false := rfl
  rw [parseLine]
  simp only [htrim, hns, isPrefixOf_append_self]
  simp only [Bool.false_eq_true, if_false, if_pos rfl]
  rw [show (12 : Nat) = ("DESCRIPTION:".data).length from rfl, List.drop_left]
  simp

theorem parseLine_location {v : Str} (hsafe : icalSafe v) (st : ParseSt) :
    parseLine st ("LOCATION:".data ++ v) = .ok { st with location := some v } := by
  have htrim : trimRust ("LOCATION:".data ++ v) = "LOCATION:".data ++ v :=
    trim_key_value rfl (by decide) (by intro c hc; cases hc; decide) (icalSafe_last hsafe)
  have h1 : ("SUMMARY:".data).isPrefixOf ("LOCATION:".data ++ v) = false := rfl
  have h2 : ("DESCRIPTION:".data).isPrefixOf ("LOCATION:".data ++ v) = false := rfl
  rw [parseLine]
  simp only [htrim, h1, h2, isPrefixOf_append_self]
  simp only [Bool.false_eq_true, if_false, if_pos rfl]
  rw [show (9 : Nat) = ("LOCATION:".data).length from rfl, List.drop_left]
  simp

theorem formatICal_getLast_not_ws (dt : UtcDateTime) :
    ∀ c, (formatICal dt).getLast? = some c → isWsRust c = false := by
  intro c hc
  rw [formatICal, List.getLast?_append_of_ne_nil _ (by simp)] at hc
  have h2 : ('T' :: (pad2 dt.hour ++ pad2 dt.minute ++ pad2 dt.second ++ ['Z'])).getLast? =
      some 'Z' := by
    rw [show ('T' :: (pad2 dt.hour ++ pad2 dt.minute ++ pad2 dt.second ++ ['Z'])) =
      ['T'] ++ (pad2 dt.hour ++ pad2 dt.minute ++ pad2 dt.second ++ ['Z']) from rfl]
    rw [List.getLast?_append_of_ne_nil _ (by simp),
      List.getLast?_append_of_ne_nil _ (by simp)]
    rfl
  rw [h2] at hc
  cases hc
  decide

theorem splitColon_dt_line (key : Str) (hk : (':') ∉ key) (dt : UtcDateTime) :
    splitChar ':' (key ++ ':' :: formatICal dt) = [key, formatICal dt] := by
  rw [splitChar_append hk]
  rw [splitChar_not_mem (not_mem_formatICal (by decide) (by decide) (by decide))]

theorem parseLine_dtstart {dt : UtcDateTime} (hv : dt.Valid) (st : ParseSt) :
    parseLine st ("DTSTART:".data ++ formatICal dt) =
      .ok { st with start_time := some dt } := by
  have htrim : trimRust ("DTSTART:".data ++ formatICal dt) =
      "DTSTART:".data ++ formatICal dt :=
    trim_key_value rfl (by decide) (by intro c hc; cases hc; decide)
      (formatICal_getLast_not_ws dt)
  have h1 : ("SUMMARY:".data).isPrefixOf ("DTSTART:".data ++ formatICal dt) = false := rfl
  have h2 : ("DESCRIPTION:".data).isPrefixOf ("DTSTART:".data ++ formatICal dt) =
      false := rfl
  have h3 : ("LOCATION:".data).isPrefixOf ("DTSTART:".data ++ formatICal dt) = false := rfl
  have h4 : ("DTSTART".data).isPrefixOf ("DTSTART:".data ++ formatICal dt) = true := rfl
  have hsplit : splitChar ':' ("DTSTART:".data ++ formatICal dt) =
      ["DTSTART".data, formatICal dt] := by
    rw [show ("DTSTART:".data ++ formatICal dt) =
      "DTSTART".data ++ ':' :: formatICal dt from rfl]
    exact splitColon_dt_line _ (by decide) dt
  rw [parseLine]
  simp only [htrim, h1, h2, h3, h4, hsplit]
  simp only [Bool.false_eq_true, if_false, if_pos rfl]
  rw [show ((["DTSTART".data, formatICal dt] : List Str).getLastD []) =
    formatICal dt from rfl]
  rw [parse_ical_datetime_format hv]
  simp

theorem parseLine_dtend {dt : UtcDateTime} (hv : dt.Valid) (st : ParseSt) :
    parseLine st ("DTEND:".data ++ formatICal dt) =
      .ok { st with end_time := some dt } := by
  have htrim : trimRust ("DTEND:".data ++ formatICal dt) =
      "DTEND:".data ++ formatICal dt :=
    trim_key_value rfl (by decide) (by intro c hc; cases hc; decide)
      (formatICal_getLast_not_ws dt)
  have h1 : ("SUMMARY:".data).isPrefixOf ("DTEND:".data ++ formatICal dt) = false := rfl
  have h2 : ("DESCRIPTION:".data).isPrefixOf ("DTEND:".data ++ formatICal dt) =
      false := rfl
  have h3 : ("LOCATION:".data).isPrefixOf ("DTEND:".data ++ formatICal dt) = false := rfl
  have h4 : ("DTSTART".data).isPrefixOf ("DTEND:".data ++ formatICal dt) = false := rfl
  have h5 : ("DTEND".data).isPrefixOf ("DTEND:".data ++ formatICal dt) = true := rfl
  have hsplit : splitChar ':' ("DTEND:".data ++ formatICal dt) =
      ["DTEND".data, formatICal dt] := by
    rw [show ("DTEND:".data ++ formatICal dt) =
      "DTEND".data ++ ':' :: formatICal dt from rfl]
    exact splitColon_dt_line _ (by decide) dt
  rw [parseLine]
  simp only [htrim, h1, h2, h3, h4, h5, hsplit]
  simp only [Bool.false_eq_true, if_false, if_pos rfl]
  rw [show ((["DTEND".data, formatICal dt] : List Str).getLastD []) =
    formatICal dt from rfl]
  rw [parse_ical_datetime_format hv]
  simp

/-! ## Helper lemmas: path shapes and resolution -/

theorem parts_calendarPath (cid : Uuid) :
    splitChar '/' (dropLeadingSlashes (calendarPath cid)) =
      ["calendars".data, uuidToStr cid] := by
  rw [show dropLeadingSlashes (calendarPath cid) =
    "calendars".data ++ '/' :: natDigits cid from rfl]
  rw [splitChar_append (by decide)]
  rw [splitChar_not_mem (not_mem_natDigits (by decide) cid)]
  rfl

theorem parts_eventPath (cid : Uuid) {seg : Str} (hseg : ('/') ∉ seg) :
    splitChar '/' (dropLeadingSlashes (eventPath cid seg)) =
      ["calendars".data, uuidToStr cid, seg] := by
  rw [show dropLeadingSlashes (eventPath cid seg) =
    "calendars".data ++ '/' :: (natDigits cid ++ '/' :: seg) from rfl]
  rw [splitChar_append (by decide)]
  rw [splitChar_append (not_mem_natDigits (by decide) cid)]
  rw [splitChar_not_mem hseg]
  rfl

theorem not_slash_mem_ics_seg (n : Nat) : ('/') ∉ uuidToStr n ++ icsSuffix := by
  intro hm
  rcases List.mem_append.1 hm with hm | hm
  · exact not_mem_natDigits (by decide) n hm
  · revert hm; decide

theorem trimEndIcs_eq_self {cs : Str} (h : ¬ icsSuffix.isSuffixOf cs = true) :
    trimEndIcs cs = cs := by
  rw [trimEndIcs_unfold, if_neg h]

theorem trimEndIcs_natDigits (n : Nat) : trimEndIcs (natDigits n) = natDigits n := by
  apply trimEndIcs_eq_self
  intro h
  have hs : icsSuffix <:+ natDigits n := by rwa [List.isSuffixOf_iff_suffix] at h
  have hm : ('.') ∈ natDigits n := hs.sublist.subset (by decide)
  exact not_mem_natDigits (by decide) n hm

theorem trimEndIcs_append_ics (n : Nat) :
    trimEndIcs (natDigits n ++ icsSuffix) = natDigits n := by
  rw [trimEndIcs_unfold]
  rw [if_pos (by
    rw [List.isSuffixOf_iff_suffix]
    exact List.suffix_append (natDigits n) icsSuffix)]
  have hlen : (natDigits n ++ icsSuffix).length - 4 = (natDigits n).length := by
    simp [icsSuffix]
  rw [hlen, List.take_left, trimEndIcs_natDigits]

/-! ## Helper lemmas: handler evaluation on canonical paths -/

theorem parts_calSeg {a seg : Str} (ha : ('/') ∉ a) (hseg : ('/') ∉ seg) :
    splitChar '/' (dropLeadingSlashes ("/calendars/".data ++ a ++ '/' :: seg)) =
      ["calendars".data, a, seg] := by
  rw [show dropLeadingSlashes ("/calendars/".data ++ a ++ '/' :: seg) =
    "calendars".data ++ '/' :: (a ++ '/' :: seg) from rfl]
  rw [splitChar_append (by decide), splitChar_append ha, splitChar_not_mem hseg]

theorem caldav_get_calendarPath_eval (s : Store) (uid cid : Uuid) (cal : Calendar)
    (hcal : s.get_calendar_by_id cid = some cal) :
    caldav_get s uid (calendarPath cid) =
      if cal.user_id ≠ uid ∧ cal.is_public = false then
        .error (.authenticationError "Access denied".data)
      else .ok (collectionResponse cal (s.get_events_by_calendar_id cid)) := by
  rw [caldav_get]
  simp only [parts_calendarPath]
  rw [if_neg (by simp)]
  rw [show (["calendars".data, uuidToStr cid].getD 1 []) = uuidToStr cid from rfl]
  rw [uuidParse_uuidToStr]
  simp only [hcal]
  simp

theorem caldav_get_eventPath_auth (s : Store) (uid cid : Uuid) (cal : Calendar)
    {seg : Str} (hseg : ('/') ∉ seg)
    (hcal : s.get_calendar_by_id cid = some cal)
    (hauth : cal.user_id ≠ uid ∧ cal.is_public = false) :
    caldav_get s uid (eventPath cid seg) =
      .error (.authenticationError "Access denied".data) := by
  rw [caldav_get]
  simp only [parts_eventPath cid hseg]
  rw [if_neg (by simp)]
  rw [show (["calendars".data, uuidToStr cid, seg].getD 1 []) = uuidToStr cid from rfl]
  rw [uuidParse_uuidToStr]
  simp only [hcal]
  rw [if_pos hauth]

theorem caldav_get_eventIcs_eval (s : Store) (uid cid eid : Uuid) (cal : Calendar)
    (ev : Event) (hcal : s.get_calendar_by_id cid = some cal)
    (hacc : cal.user_id = uid ∨ cal.is_public = true)
    (hev : s.get_event_by_id eid = some ev) :
    caldav_get s uid (eventPath cid (uuidToStr eid ++ icsSuffix)) =
      .ok (eventResponse ev) := by
  rw [caldav_get]
  simp only [parts_eventPath cid (not_slash_mem_ics_seg eid)]
  rw [if_neg (by simp)]
  rw [show (["calendars".data, uuidToStr cid, uuidToStr eid ++ icsSuffix].getD 1 []) =
    uuidToStr cid from rfl]
  rw [uuidParse_uuidToStr]
  simp only [hcal]
  rw [if_neg (by
    rcases hacc with h | h
    · intro hx; exact hx.1 h
    · intro hx; rw [h] at hx; cases hx.2)]
  rw [if_neg (by
    intro hx
    rcases hx with hx | hx
    · simp at hx
    · rw [show (["calendars".data, uuidToStr cid, uuidToStr eid ++ icsSuffix].getD 2 []) =
        uuidToStr eid ++ icsSuffix from rfl] at hx
      exact natDigits_ne_nil eid (by
        rcases List.append_eq_nil.1 hx with ⟨h1, _⟩
        exact h1))]
  rw [show (["calendars".data, uuidToStr cid, uuidToStr eid ++ icsSuffix].getD 2 []) =
    uuidToStr eid ++ icsSuffix from rfl]
  rw [show uuidToStr eid ++ icsSuffix = natDigits eid ++ icsSuffix from rfl]
  rw [trimEndIcs_append_ics]
  rw [show (natDigits eid : Str) = uuidToStr eid from rfl, uuidParse_uuidToStr]
  simp only [hev]

theorem caldav_put_auth (s : Store) (uid cid : Uuid) (cal : Calendar)
    {seg : Str} (hseg : ('/') ∉ seg) (body : Str)
    (hcal : s.get_calendar_by_id cid = some cal) (hne : cal.user_id ≠ uid) :
    caldav_put s uid (eventPath cid seg) body =
      .err (.authenticationError dontOwnMsg) := by
  rw [caldav_put]
  simp only [parts_eventPath cid hseg]
  rw [if_neg (by simp)]
  rw [show (["calendars".data, uuidToStr cid, seg].getD 1 []) = uuidToStr cid from rfl]
  rw [uuidParse_uuidToStr]
  simp only [hcal]
  rw [if_pos hne]

theorem caldav_put_success (s : Store) (uid cid : Uuid) (cal : Calendar)
    {seg : Str} (hseg : ('/') ∉ seg) {body : Str} {ne : NewEvent}
    (hcal : s.get_calendar_by_id cid = some cal) (heq : cal.user_id = uid)
    (hparse : parse_icalendar body = .ok ne) :
    caldav_put s uid (eventPath cid seg) body =
      .ok (putResponse cid (s.create_event cid ne).1, (s.create_event cid ne).2) := by
  rw [caldav_put]
  simp only [parts_eventPath cid hseg]
  rw [if_neg (by simp)]
  rw [show (["calendars".data, uuidToStr cid, seg].getD 1 []) = uuidToStr cid from rfl]
  rw [uuidParse_uuidToStr]
  simp only [hcal]
  rw [if_neg (by simp [heq])]
  rw [hparse]

theorem caldav_delete_eval (s : Store) (uid eid : Uuid) {a : Str} (ha : ('/') ∉ a) :
    caldav_delete s uid ("/calendars/".data ++ a ++ '/' :: (uuidToStr eid ++ icsSuffix)) =
      match s.get_event_by_id eid with
      | none => .error (.notFoundError "Event not found".data)
      | some event =>
        match s.get_calendar_by_id event.calendar_id with
        | none => .error (.notFoundError "Calendar not found".data)
        | some calendar =>
          if calendar.user_id ≠ uid then .error (.authenticationError noAccessMsg)
          else .ok ({ status := 204, body := [] }, s.delete_event eid) := by
  rw [caldav_delete]
  simp only [parts_calSeg ha (not_slash_mem_ics_seg eid)]
  rw [if_neg (by simp)]
  rw [show (["calendars".data, a, uuidToStr eid ++ icsSuffix].getD 2 []) =
    uuidToStr eid ++ icsSuffix from rfl]
  rw [show uuidToStr eid ++ icsSuffix = natDigits eid ++ icsSuffix from rfl]
  rw [trimEndIcs_append_ics]
  rw [show (natDigits eid : Str) = uuidToStr eid from rfl, uuidParse_uuidToStr]

/-! ## Helper lemmas: multistatus structure -/

theorem block_mem_reportResponses {s : Store} {uid : Uuid} {c : Calendar} {e : Event}
    (hc : c ∈ s.get_calendars_by_user_id uid)
    (he : e ∈ s.get_events_by_calendar_id c.id) :
    reportResponseBlock c e ∈ reportResponses s uid := by
  rw [reportResponses]
  exact List.mem_flatMap.2 ⟨c, hc, List.mem_map_of_mem _ he⟩

theorem infix_report_body {s : Store} {uid : Uuid} {b : Str} {pat : Str}
    {c : Calendar} {e : Event}
    (hc : c ∈ s.get_calendars_by_user_id uid)
    (he : e ∈ s.get_events_by_calendar_id c.id)
    (hpat : pat <:+: reportResponseBlock c e) :
    pat <:+: (caldav_report s uid b).body := by
  have h1 : reportResponseBlock c e <:+: (reportResponses s uid).flatten :=
    List.infix_of_mem_flatten (block_mem_reportResponses hc he)
  have h2 : (reportResponses s uid).flatten <:+: (caldav_report s uid b).body := by
    exact ⟨("<?xml version=\"1.0\" encoding=\"utf-8\"?>"
      ++ "\n<d:multistatus xmlns:d=\"DAV:\" xmlns:cal=\"urn:ietf:params:xml:ns:caldav\">"
      ++ "\n    ").data, "\n</d:multistatus>".data, rfl⟩
  exact hpat.trans (h1.trans h2)

theorem etag_infix_block (c : Calendar) (e : Event) :
    ("<d:getetag>\"".data ++ uuidToStr e.id ++ "\"</d:getetag>".data) <:+:
      reportResponseBlock c e := by
  refine ⟨"<d:response>\n                    <d:href>".data
      ++ ("/calendars/".data ++ uuidToStr c.id ++ '/' :: uuidToStr e.id ++ ".ics".data)
      ++ ("</d:href>\n                    <d:propstat>"
        ++ "\n                        <d:prop>\n                            ").data,
    "\n                            <cal:calendar-data>".data
      ++ escape_xml (ICalendarEvent.ofEvent e).to_ical_string
      ++ ("</cal:calendar-data>"
        ++ "\n                        </d:prop>"
        ++ "\n                        <d:status>HTTP/1.1 200 OK</d:status>"
        ++ "\n                    </d:propstat>"
        ++ "\n                </d:response>").data, ?_⟩
  rw [reportResponseBlock]
  rw [show (("</d:href>\n                    <d:propstat>"
      ++ "\n                        <d:prop>"
      ++ "\n                            <d:getetag>\"" : String)).data =
    ("</d:href>\n                    <d:propstat>"
      ++ "\n                        <d:prop>\n                            ").data
      ++ "<d:getetag>\"".data from rfl]
  rw [show ("\"</d:getetag>\n                            <cal:calendar-data>"
      : String).data =
    "\"</d:getetag>".data
      ++ "\n                            <cal:calendar-data>".data from rfl]
  simp only [List.append_assoc]

theorem caldata_infix_block (c : Calendar) (e : Event) :
    ("<cal:calendar-data>".data
      ++ escape_xml (ICalendarEvent.ofEvent e).to_ical_string
      ++ "</cal:calendar-data>".data) <:+: reportResponseBlock c e := by
  refine ⟨"<d:response>\n                    <d:href>".data
      ++ ("/calendars/".data ++ uuidToStr c.id ++ '/' :: uuidToStr e.id ++ ".ics".data)
      ++ ("</d:href>\n                    <d:propstat>"
        ++ "\n                        <d:prop>"
        ++ "\n                            <d:getetag>\"").data
      ++ uuidToStr e.id
      ++ "\"</d:getetag>\n                            ".data,
    ("\n                        </d:prop>"
      ++ "\n                        <d:status>HTTP/1.1 200 OK</d:status>"
      ++ "\n                    </d:propstat>"
      ++ "\n                </d:response>").data, ?_⟩
  rw [reportResponseBlock]
  rw [show ("\"</d:getetag>\n                            <cal:calendar-data>"
      : String).data =
    "\"</d:getetag>\n                            ".data
      ++ "<cal:calendar-data>".data from rfl]
  rw [show (("</cal:calendar-data>"
      ++ "\n                        </d:prop>"
      ++ "\n                        <d:status>HTTP/1.1 200 OK</d:status>"
      ++ "\n                    </d:propstat>"
      ++ "\n                </d:response>" : String)).data =
    "</cal:calendar-data>".data
      ++ ("\n                        </d:prop>"
        ++ "\n                        <d:status>HTTP/1.1 200 OK</d:status>"
        ++ "\n                    </d:propstat>"
        ++ "\n                </d:response>").data from rfl]
  simp only [List.append_assoc]

theorem href_infix_block (c : Calendar) (e : Event) :
    ("<d:href>".data ++ ("/calendars/".data ++ uuidToStr c.id ++ '/' ::
      uuidToStr e.id ++ ".ics".data) ++ "</d:href>".data) <:+:
      reportResponseBlock c e := by
  refine ⟨"<d:response>\n                    ".data,
    ("\n                    <d:propstat>"
      ++ "\n                        <d:prop>"
      ++ "\n                            <d:getetag>\"").data
      ++ uuidToStr e.id
      ++ "\"</d:getetag>\n                            <cal:calendar-data>".data
      ++ escape_xml (ICalendarEvent.ofEvent e).to_ical_string
      ++ ("</cal:calendar-data>"
        ++ "\n                        </d:prop>"
        ++ "\n                        <d:status>HTTP/1.1 200 OK</d:status>"
        ++ "\n                    </d:propstat>"
        ++ "\n                </d:response>").data, ?_⟩
  rw [reportResponseBlock]
  rw [show ("<d:response>\n                    <d:href>" : String).data =
    "<d:response>\n                    ".data ++ "<d:href>".data from rfl]
  rw [show (("</d:href>\n                    <d:propstat>"
      ++ "\n                        <d:prop>"
      ++ "\n                            <d:getetag>\"" : String)).data =
    "</d:href>".data
      ++ (("\n                    <d:propstat>"
        ++ "\n                        <d:prop>"
        ++ "\n                            <d:getetag>\"" : String)).data from rfl]
  simp only [List.append_assoc]

theorem displayname_infix_propfind {s : Store} {uid : Uuid} {c : Calendar}
    (hc : c ∈ s.get_calendars_by_user_id uid) :
    ("<d:displayname>".data ++ c.name ++ "</d:displayname>".data) <:+:
      (caldav_propfind s uid).body := by
  have hblock : ("<d:displayname>".data ++ c.name ++ "</d:displayname>".data) <:+:
      propfindResponseBlock c := by
    refine ⟨"<d:response>\n                <d:href>".data
        ++ ("/calendars/".data ++ uuidToStr c.id ++ "/".data)
        ++ ("</d:href>\n                <d:propstat>\n                    <d:prop>"
          ++ "\n                        <d:resourcetype>"
          ++ "\n                            <d:collection/>"
          ++ "\n                            <cal:calendar/>"
          ++ "\n                        </d:resourcetype>"
          ++ "\n                        ").data,
      ("\n                        <cal:supported-calendar-component-set>"
        ++ "\n                            <cal:comp name=\"VEVENT\"/>"
        ++ "\n                            <cal:comp name=\"VTODO\"/>"
        ++ "\n                        </cal:supported-calendar-component-set>"
        ++ "\n                    </d:prop>"
        ++ "\n                    <d:status>HTTP/1.1 200 OK</d:status>"
        ++ "\n                </d:propstat>"
        ++ "\n            </d:response>").data, ?_⟩
    rw [propfindResponseBlock]
    rw [show (("</d:href>\n                <d:propstat>\n                    <d:prop>"
        ++ "\n                        <d:resourcetype>"
        ++ "\n                            <d:collection/>"
        ++ "\n                            <cal:calendar/>"
        ++ "\n                        </d:resourcetype>"
        ++ "\n                        <d:displayname>" : String)).data =
      ("</d:href>\n                <d:propstat>\n                    <d:prop>"
        ++ "\n                        <d:resourcetype>"
        ++ "\n                            <d:collection/>"
        ++ "\n                            <cal:calendar/>"
        ++ "\n                        </d:resourcetype>"
        ++ "\n                        ").data ++ "<d:displayname>".data from rfl]
    rw [show (("</d:displayname>"
        ++ "\n                        <cal:supported-calendar-component-set>"
        ++ "\n                            <cal:comp name=\"VEVENT\"/>"
        ++ "\n                            <cal:comp name=\"VTODO\"/>"
        ++ "\n                        </cal:supported-calendar-component-set>"
        ++ "\n                    </d:prop>"
        ++ "\n                    <d:status>HTTP/1.1 200 OK</d:status>"
        ++ "\n                </d:propstat>"
        ++ "\n            </d:response>" : String)).data =
      "</d:displayname>".data
        ++ ("\n                        <cal:supported-calendar-component-set>"
          ++ "\n                            <cal:comp name=\"VEVENT\"/>"
          ++ "\n                            <cal:comp name=\"VTODO\"/>"
          ++ "\n                        </cal:supported-calendar-component-set>"
          ++ "\n                    </d:prop>"
          ++ "\n                    <d:status>HTTP/1.1 200 OK</d:status>"
          ++ "\n                </d:propstat>"
          ++ "\n            </d:response>").data from rfl]
    simp only [List.append_assoc]
  have h1 : propfindResponseBlock c <:+:
      ((s.get_calendars_by_user_id uid).map propfindResponseBlock).flatten :=
    List.infix_of_mem_flatten (List.mem_map_of_mem _ hc)
  have h2 : ((s.get_calendars_by_user_id uid).map propfindResponseBlock).flatten <:+:
      (caldav_propfind s uid).body :=
    ⟨("<?xml version=\"1.0\" encoding=\"utf-8\"?>"
      ++ "\n<d:multistatus xmlns:d=\"DAV:\" xmlns:cal=\"urn:ietf:params:xml:ns:caldav\">"
      ++ "\n    ").data, "\n</d:multistatus>".data, rfl⟩
  exact hblock.trans (h1.trans h2)

/-! ## Helper lemmas: the all-day flag in the decoder -/

theorem parseLine_allday {st st2 : ParseSt} {l : Str}
    (h : parseLine st l = .ok st2)
    (hline : containsSub "VALUE=DATE".data (trimRust l) = true → hasPropPrefix (trimRust l)) :
    st2.is_all_day = st.is_all_day := by
  simp only [parseLine] at h
  by_cases c1 : ("SUMMARY:".data.isPrefixOf (trimRust l)) = true
  · rw [if_pos c1] at h
    cases h
    rfl
  · rw [if_neg c1] at h
    by_cases c2 : ("DESCRIPTION:".data.isPrefixOf (trimRust l)) = true
    · rw [if_pos c2] at h
      cases h
      rfl
    · rw [if_neg c2] at h
      by_cases c3 : ("LOCATION:".data.isPrefixOf (trimRust l)) = true
      · rw [if_pos c3] at h
        cases h
        rfl
      · rw [if_neg c3] at h
        by_cases c4 : ("DTSTART".data.isPrefixOf (trimRust l)) = true
        · rw [if_pos c4] at h
          cases hdt : parse_ical_datetime ((splitChar ':' (trimRust l)).getLastD []) with
          | ok dt => rw [hdt] at h; cases h; rfl
          | err e => rw [hdt] at h; cases h
          | panicked => rw [hdt] at h; cases h
        · rw [if_neg c4] at h
          by_cases c5 : ("DTEND".data.isPrefixOf (trimRust l)) = true
          · rw [if_pos c5] at h
            cases hdt : parse_ical_datetime ((splitChar ':' (trimRust l)).getLastD []) with
            | ok dt => rw [hdt] at h; cases h; rfl
            | err e => rw [hdt] at h; cases h
            | panicked => rw [hdt] at h; cases h
          · rw [if_neg c5] at h
            by_cases c6 : containsSub "VALUE=DATE".data (trimRust l) = true
            · rcases hline c6 with hp | hp | hp | hp | hp
              · exact absurd hp c1
              · exact absurd hp c2
              · exact absurd hp c3
              · exact absurd hp c4
              · exact absurd hp c5
            · rw [if_neg c6] at h
              cases h
              rfl

theorem parseLinesLoop_allday :
    ∀ (lines : List Str) (st st2 : ParseSt),
      (∀ l ∈ lines, containsSub "VALUE=DATE".data (trimRust l) = true →
        hasPropPrefix (trimRust l)) →
      parseLinesLoop st lines = .ok st2 → st2.is_all_day = st.is_all_day := by
  intro lines
  induction lines with
  | nil =>
    intro st st2 _ h
    cases h
    rfl
  | cons l rest ih =>
    intro st st2 hcond h
    rw [parseLinesLoop] at h
    cases hpl : parseLine st l with
    | ok stm =>
      rw [hpl] at h
      have h1 := ih stm st2 (fun x hx => hcond x (by simp [hx])) h
      have h2 := parseLine_allday hpl (hcond l (by simp))
      rw [h1, h2]
    | err e => rw [hpl] at h; cases h
    | panicked => rw [hpl] at h; cases h

theorem parse_icalendar_allday {data : Str} {ne : NewEvent}
    (hcond : ∀ l ∈ linesRust data,
      containsSub "VALUE=DATE".data (trimRust l) = true → hasPropPrefix (trimRust l))
    (hp : parse_icalendar data = .ok ne) : ne.is_all_day = false := by
  rw [parse_icalendar] at hp
  cases hloop : parseLinesLoop initSt (linesRust data) with
  | ok st =>
    simp only [hloop] at hp
    have hflag : st.is_all_day = initSt.is_all_day :=
      parseLinesLoop_allday (linesRust data) initSt st hcond hloop
    cases ht : st.title with
    | none => simp only [ht] at hp; cases hp
    | some title =>
      simp only [ht] at hp
      cases hs : st.start_time with
      | none => simp only [hs] at hp; cases hp
      | some stt =>
        simp only [hs] at hp
        cases he : st.end_time with
        | none => simp only [he] at hp; cases hp
        | some ent =>
          simp only [he] at hp
          cases hp
          rw [hflag]
          rfl
  | err e => simp only [hloop] at hp; cases hp
  | panicked => simp only [hloop] at hp; cases hp

/-! ## Helper lemmas: the XML escaping as a per-character map -/

theorem escape_xml_append (a b : Str) :
    escape_xml (a ++ b) = escape_xml a ++ escape_xml b := by
  simp [escape_xml, replaceChar_append]

theorem escape_xml_single (c : Char) : escape_xml [c] = escCharSpec c := by
  by_cases h1 : c = '&'
  · subst h1; rfl
  by_cases h2 : c = '<'
  · subst h2; rfl
  by_cases h3 : c = '>'
  · subst h3; rfl
  by_cases h4 : c = '"'
  · subst h4; rfl
  by_cases h5 : c = aposChar
  · subst h5; rfl
  rw [escCharSpec, if_neg h1, if_neg h2, if_neg h3, if_neg h4, if_neg h5]
  simp [escape_xml, replaceChar, h1, h2, h3, h4, h5]

theorem escape_xml_flatMap (cs : Str) : escape_xml cs = cs.flatMap escCharSpec := by
  induction cs with
  | nil => rfl
  | cons c rest ih =>
    rw [show (c :: rest : Str) = [c] ++ rest from rfl, escape_xml_append,
      escape_xml_single, ih]
    simp

theorem formatICal_getLastZ (dt : UtcDateTime) :
    (formatICal dt).getLast? = some 'Z' := by
  rw [formatICal, List.getLast?_append_of_ne_nil _ (by simp)]
  rw [show ('T' :: (pad2 dt.hour ++ pad2 dt.minute ++ pad2 dt.second ++ ['Z'])) =
    ['T'] ++ (pad2 dt.hour ++ pad2 dt.minute ++ pad2 dt.second ++ ['Z']) from rfl]
  rw [List.getLast?_append_of_ne_nil _ (by simp),
    List.getLast?_append_of_ne_nil _ (by simp)]
  rfl

theorem parseLinesLoop_cons_ok {st st2 : ParseSt} {l : Str} (rest : List Str)
    (h : parseLine st l = .ok st2) :
    parseLinesLoop st (l :: rest) = parseLinesLoop st2 rest := by
  rw [parseLinesLoop, h]

instance (line : Str) : Decidable (hasPropPrefix line) := by
  unfold hasPropPrefix
  infer_instance

/-! ## Claims -/

/-- C1: Ownership enforcement.  For every principal and every calendar in the
store, CalDAV GET on the calendar (or an event path under it) succeeds only
if the principal owns the calendar or the calendar is public, and fails with
an authentication-kind error otherwise; CalDAV PUT and DELETE fail with an
authentication-kind error whenever the principal is not the owner, regardless
of the public flag. -/
theorem C1_ownership_enforcement
    (s : Store) (uid cid eid : Uuid) (cal : Calendar) (ev : Event)
    (seg body : Str) (hseg : ('/') ∉ seg)
    (hcal : s.get_calendar_by_id cid = some cal) :
    (¬ (cal.user_id = uid ∨ cal.is_public = true) →
        caldav_get s uid (calendarPath cid) =
            .error (.authenticationError "Access denied".data)
          ∧ caldav_get s uid (eventPath cid seg) =
            .error (.authenticationError "Access denied".data))
    ∧ (∀ r, caldav_get s uid (calendarPath cid) = .ok r →
        cal.user_id = uid ∨ cal.is_public = true)
    ∧ (∀ r, caldav_get s uid (eventPath cid seg) = .ok r →
        cal.user_id = uid ∨ cal.is_public = true)
    ∧ (cal.user_id ≠ uid →
        caldav_put s uid (eventPath cid seg) body =
          .err (.authenticationError dontOwnMsg))
    ∧ (∀ x, caldav_put s uid (eventPath cid seg) body = .ok x → cal.user_id = uid)
    ∧ (s.get_event_by_id eid = some ev → ev.calendar_id = cid →
        cal.user_id ≠ uid →
        caldav_delete s uid (eventPath cid (uuidToStr eid ++ icsSuffix)) =
          .error (.authenticationError noAccessMsg))
    ∧ (∀ x, s.get_event_by_id eid = some ev → ev.calendar_id = cid →
        caldav_delete s uid (eventPath cid (uuidToStr eid ++ icsSuffix)) = .ok x →
        cal.user_id = uid) := by
  have hneg : ¬ (cal.user_id = uid ∨ cal.is_public = true) →
      cal.user_id ≠ uid ∧ cal.is_public = false := by
    intro h
    refine ⟨fun he => h (Or.inl he), ?_⟩
    cases hb : cal.is_public
    · rfl
    · exact absurd (Or.inr hb) h
  have hdel : ∀ (hev : s.get_event_by_id eid = some ev)
      (hec : ev.calendar_id = cid),
      caldav_delete s uid (eventPath cid (uuidToStr eid ++ icsSuffix)) =
        if cal.user_id ≠ uid then .error (.authenticationError noAccessMsg)
        else .ok ({ status := 204, body := [] }, s.delete_event eid) := by
    intro hev hec
    rw [show eventPath cid (uuidToStr eid ++ icsSuffix) =
      "/calendars/".data ++ uuidToStr cid ++ '/' :: (uuidToStr eid ++ icsSuffix) from rfl]
    rw [caldav_delete_eval s uid eid (a := uuidToStr cid)
      (not_mem_uuidToStr (by decide) cid)]
    simp only [hev, hec, hcal]
  refine ⟨?_, ?_, ?_, ?_, ?_, ?_, ?_⟩
  · intro h
    constructor
    · rw [caldav_get_calendarPath_eval s uid cid cal hcal, if_pos (hneg h)]
    · exact caldav_get_eventPath_auth s uid cid cal hseg hcal (hneg h)
  · intro r hr
    by_contra hno
    rw [caldav_get_calendarPath_eval s uid cid cal hcal, if_pos (hneg hno)] at hr
    cases hr
  · intro r hr
    by_contra hno
    rw [caldav_get_eventPath_auth s uid cid cal hseg hcal (hneg hno)] at hr
    cases hr
  · intro hne
    exact caldav_put_auth s uid cid cal hseg body hcal hne
  · intro x hx
    by_contra hne
    rw [caldav_put_auth s uid cid cal hseg body hcal hne] at hx
    cases hx
  · intro hev hec hne
    rw [hdel hev hec, if_pos hne]
  · intro x hev hec hx
    by_contra hne
    rw [hdel hev hec, if_pos hne] at hx
    cases hx

/-- C1 witness: at a concrete store, a non-owner principal is denied GET on
the private calendar, PUT under it, and DELETE of its event. -/
theorem C1_ownership_enforcement_witness :
    caldav_get wStore 99 (calendarPath 1) =
      .error (.authenticationError "Access denied".data)
    ∧ caldav_put wStore 99 (eventPath 1 ['x']) [] =
      .err (.authenticationError dontOwnMsg)
    ∧ caldav_delete wStore 99 (eventPath 1 (uuidToStr 10 ++ icsSuffix)) =
      .error (.authenticationError noAccessMsg) := by
  have h := C1_ownership_enforcement wStore 99 1 10 wCalPriv wEv ['x'] []
    (by decide) (by decide)
  exact ⟨(h.1 (by decide)).1, h.2.2.2.1 (by decide),
    h.2.2.2.2.2.1 (by decide) (by decide) (by decide)⟩

/-- C2: For every GET on an event-resource path `/calendars/{C}/{E}.ics`
where calendar C exists and is accessible (owned or public) and an event E
exists anywhere in the store, the handler returns that event's VCALENDAR
with its ETag — no hypothesis relates the event's owning calendar to C, so
an event of a different calendar is served through any accessible
calendar's path. -/
theorem C2_cross_calendar_event_leak
    (s : Store) (uid cid eid : Uuid) (cal : Calendar) (ev : Event)
    (hcal : s.get_calendar_by_id cid = some cal)
    (hacc : cal.user_id = uid ∨ cal.is_public = true)
    (hev : s.get_event_by_id eid = some ev) :
    caldav_get s uid (eventPath cid (uuidToStr eid ++ icsSuffix)) =
      .ok (eventResponse ev)
    ∧ (eventResponse ev).status = 200
    ∧ (eventResponse ev).etag = some ('"' :: uuidToStr ev.id ++ ['"'])
    ∧ (eventResponse ev).body =
        "BEGIN:VCALENDAR\r\nVERSION:2.0\r\nPRODID:-//My CalDAV Server//EN\r\n".data
        ++ (ICalendarEvent.ofEvent ev).to_ical_string ++ "END:VCALENDAR\r\n".data :=
  ⟨caldav_get_eventIcs_eval s uid cid eid cal ev hcal hacc hev, rfl, rfl, rfl⟩

/-- C2 witness: at a concrete store, the event of the private calendar 1 is
served through the public calendar 2's path to a stranger principal. -/
theorem C2_cross_calendar_event_leak_witness :
    caldav_get wStore 99 (eventPath 2 (uuidToStr 10 ++ icsSuffix)) =
      .ok (eventResponse wEv)
    ∧ wEv.calendar_id ≠ 2 ∧ wCalPriv.is_public = false := by
  refine ⟨(C2_cross_calendar_event_leak wStore 99 2 10 wCalPub wEv
    (by decide) (by decide) (by decide)).1, by decide, by decide⟩

/-- C5: the datetime-parse branch dispatch.  The claim says every
non-matching input yields a validation error and the parser never panics;
on a trimmed byte-length-10 input ending in `Z`, the source's
`&date_str[..15]` slice panics instead (modelled as `.panicked`). -/
theorem C5_datetime_slice_panic :
    parse_ical_datetime "20240101TZ".data = .panicked
    ∧ byteLen (trimRust "20240101TZ".data) = 10
    ∧ ("20240101TZ".data).getLast? = some 'Z' := by
  decide

/-- C10 counterexample: under the claim's "strip one leading slash" reading,
`//a/b.ics` has 3 segments, so the claim says the third segment is parsed as
an event identifier; the code (which strips all leading slashes) instead
fails with the validation error "Invalid event path".  Also,
`trim_end_matches` strips repeated `.ics` suffixes, not just one. -/
theorem C10_path_resolution_counterexample :
    (specSegments "//a/b.ics".data).length = 3
    ∧ caldav_delete emptyStore 0 "//a/b.ics".data =
        .error (.validationError "Invalid event path".data)
    ∧ trimEndIcs "e.ics.ics".data = "e".data := by
  decide

/-- C10 (amended): after stripping all leading slashes and splitting on `/`,
fewer than 2 segments fails GET with "Invalid calendar path", fewer than 3
segments fails PUT/DELETE with "Invalid event path", and with 3 segments the
third segment has all trailing `.ics` occurrences stripped before being
parsed as the event identifier (witnessed by DELETE reaching the event
lookup for the stripped identifier). -/
theorem C10_path_resolution_amended :
    (∀ (s : Store) (uid : Uuid) (p : Str),
      ((splitChar '/' (dropLeadingSlashes p)).length < 2 →
        caldav_get s uid p = .error (.validationError "Invalid calendar path".data))
      ∧ ((splitChar '/' (dropLeadingSlashes p)).length < 3 →
          (∀ body, caldav_put s uid p body =
            .err (.validationError "Invalid event path".data))
          ∧ caldav_delete s uid p =
            .error (.validationError "Invalid event path".data)))
    ∧ (∀ (s : Store) (uid eid : Uuid) (a : Str), ('/') ∉ a →
        s.get_event_by_id eid = none →
        caldav_delete s uid
          ("/calendars/".data ++ a ++ '/' :: (uuidToStr eid ++ icsSuffix)) =
          .error (.notFoundError "Event not found".data)) := by
  constructor
  · intro s uid p
    constructor
    · intro h
      simp only [caldav_get]
      rw [if_pos h]
    · intro h
      constructor
      · intro body
        simp only [caldav_put]
        rw [if_pos h]
      · simp only [caldav_delete]
        rw [if_pos h]
  · intro s uid eid a ha hev
    rw [caldav_delete_eval s uid eid ha]
    simp only [hev]

/-- C10 witness: the amended path-resolution behavior at concrete inputs. -/
theorem C10_path_resolution_amended_witness :
    caldav_get emptyStore 0 "/x".data =
      .error (.validationError "Invalid calendar path".data)
    ∧ caldav_delete emptyStore 0 "/x".data =
      .error (.validationError "Invalid event path".data)
    ∧ caldav_delete emptyStore 0
        ("/calendars/".data ++ "abc".data ++ '/' :: (uuidToStr 5 ++ icsSuffix)) =
      .error (.notFoundError "Event not found".data) := by
  have h := C10_path_resolution_amended
  exact ⟨(h.1 emptyStore 0 "/x".data).1 (by decide),
    ((h.1 emptyStore 0 "/x".data).2 (by decide)).2,
    h.2 emptyStore 0 5 "abc".data (by decide) (by decide)⟩

/-- C3 counterexample: a title containing semicolon, comma, backslash and
newline is NOT recovered by encode-then-decode — the decoder performs no
unescaping, so the escaped form comes back. -/
theorem C3_roundtrip_counterexample :
    parse_icalendar (ICalendarEvent.ofEvent cexEvent).to_ical_string =
      .ok ⟨[bslash, ';', bslash, ',', bslash, bslash, bslash, 'n'],
        some "d".data, some "l".data, wDT, wDT, false⟩
    ∧ [bslash, ';', bslash, ',', bslash, bslash, bslash, 'n'] ≠ cexEvent.title := by
  decide

/-- C3 (amended): the encode-then-decode round trip recovers title,
description, location, start and end exactly for events whose title,
description and location are present, ASCII, free of the four
iCalendar-escaped characters (backslash, semicolon, comma, newline) and not
ending in whitespace, and whose instants are valid 4-digit-year UTC times;
titles containing escaped characters come back in escaped form (see the
counterexample), since the decoder never unescapes. -/
theorem C3_roundtrip_amended
    (e : Event) (d l : Str)
    (ht : icalSafe e.title) (hd : e.description = some d) (hdv : icalSafe d)
    (hl : e.location = some l) (hlv : icalSafe l)
    (hs : e.start_time.Valid) (he : e.end_time.Valid) :
    parse_icalendar (ICalendarEvent.ofEvent e).to_ical_string =
      .ok ⟨e.title, some d, some l, e.start_time, e.end_time, false⟩ := by
  have hnl : ∀ ln ∈ icalLines (ICalendarEvent.ofEvent e), ('\n') ∉ ln :=
    icalLines_no_newline _ (not_mem_uuidToStr (by decide) e.id)
  have hlines : icalLines (ICalendarEvent.ofEvent e) =
      ["BEGIN:VEVENT".data,
       "UID:".data ++ uuidToStr e.id,
       "SUMMARY:".data ++ e.title,
       "DESCRIPTION:".data ++ d,
       "LOCATION:".data ++ l,
       "DTSTART:".data ++ formatICal e.start_time,
       "DTEND:".data ++ formatICal e.end_time,
       "END:VEVENT".data] := by
    simp only [icalLines, ICalendarEvent.ofEvent, hd, hl, Option.map_some',
      Option.getD_some, icalSafe_escape_eq ht, icalSafe_escape_eq hdv,
      icalSafe_escape_eq hlv]
  rw [to_ical_string_eq_joinCRLF, parse_icalendar, linesRust_joinCRLF hnl, hlines]
  rw [parseLinesLoop_cons_ok _ (parseLine_begin _),
    parseLinesLoop_cons_ok _ (parseLine_uid e.id _),
    parseLinesLoop_cons_ok _ (parseLine_summary ht _),
    parseLinesLoop_cons_ok _ (parseLine_description hdv _),
    parseLinesLoop_cons_ok _ (parseLine_location hlv _),
    parseLinesLoop_cons_ok _ (parseLine_dtstart hs _),
    parseLinesLoop_cons_ok _ (parseLine_dtend he _),
    parseLinesLoop_cons_ok _ (parseLine_endline _)]
  rfl

/-- C3 witness: the amended round trip at a concrete safe event. -/
theorem C3_roundtrip_amended_witness :
    parse_icalendar (ICalendarEvent.ofEvent wEv).to_ical_string =
      .ok ⟨"Standup".data, some "d".data, some "l".data, wDT, wDT, false⟩ :=
  C3_roundtrip_amended wEv "d".data "l".data (by decide) (by decide) (by decide)
    (by decide) (by decide) (by decide) (by decide)

/-- C4 counterexample: the body whose DTSTART line is
`DTSTART;VALUE=DATE:20240115` decodes with the all-day flag still `false` —
the `VALUE=DATE` test sits behind `else if`, so DTSTART/DTEND lines never
reach it, contradicting the claim that it sets the flag. -/
theorem C4_allday_counterexample :
    parse_icalendar c4Body = .ok c4Decoded ∧ c4Decoded.is_all_day = false := by
  decide

/-- C4 (amended): `DTSTART;VALUE=DATE:20240115` decodes the start instant to
2024-01-15T00:00:00Z as claimed, but leaves the all-day flag false; the flag
becomes true only when a line containing `VALUE=DATE` matches none of the
recognized property prefixes (SUMMARY:/DESCRIPTION:/LOCATION:/DTSTART/
DTEND), as on an unrecognized `X-...` line. -/
theorem C4_allday_amended :
    parse_icalendar c4Body = .ok c4Decoded
    ∧ c4Decoded.start_time = ⟨2024, 1, 15, 0, 0, 0⟩
    ∧ c4Decoded.is_all_day = false
    ∧ (∀ (data : Str) (ne : NewEvent),
        (∀ ln ∈ linesRust data,
          containsSub "VALUE=DATE".data (trimRust ln) = true →
            hasPropPrefix (trimRust ln)) →
        parse_icalendar data = .ok ne → ne.is_all_day = false)
    ∧ (∃ ne, parse_icalendar c4BodyX = .ok ne ∧ ne.is_all_day = true) := by
  refine ⟨by decide, by decide, by decide, ?_, ?_⟩
  · intro data ne hcond hp
    exact parse_icalendar_allday hcond hp
  · exact ⟨⟨"X".data, none, none, ⟨2024, 1, 15, 0, 0, 0⟩, ⟨2024, 1, 16, 0, 0, 0⟩, true⟩,
      by decide, by decide⟩

/-- C4 witness: the general all-day conjunct applied at `c4Body`. -/
theorem C4_allday_amended_witness : c4Decoded.is_all_day = false :=
  C4_allday_amended.2.2.2.1 c4Body c4Decoded (by decide) C4_allday_amended.1

/-- C6: REPORT returns, for any two request bodies, the identical 207
multistatus; the response-block list has exactly one entry per event across
all calendars owned by the principal; and for each such event the body
carries its href, its identifier in double quotes inside `getetag`, and its
XML-escaped iCalendar encoding inside `calendar-data`. -/
theorem C6_report_unfiltered (s : Store) (uid : Uuid) (b1 b2 : Str) :
    caldav_report s uid b1 = caldav_report s uid b2
    ∧ (caldav_report s uid b1).status = 207
    ∧ (reportResponses s uid).length =
        ((s.get_calendars_by_user_id uid).map
          (fun c => (s.get_events_by_calendar_id c.id).length)).sum
    ∧ ∀ c ∈ s.get_calendars_by_user_id uid,
        ∀ e ∈ s.get_events_by_calendar_id c.id,
          (("<d:getetag>\"".data ++ uuidToStr e.id ++ "\"</d:getetag>".data) <:+:
            (caldav_report s uid b1).body)
          ∧ (("<cal:calendar-data>".data
              ++ escape_xml (ICalendarEvent.ofEvent e).to_ical_string
              ++ "</cal:calendar-data>".data) <:+: (caldav_report s uid b1).body)
          ∧ (("<d:href>".data ++ ("/calendars/".data ++ uuidToStr c.id ++ '/' ::
              uuidToStr e.id ++ ".ics".data) ++ "</d:href>".data) <:+:
              (caldav_report s uid b1).body) := by
  refine ⟨rfl, rfl, ?_, ?_⟩
  · rw [reportResponses, List.length_flatMap]
    simp [Function.comp_def]
  · intro c hc e he
    exact ⟨infix_report_body hc he (etag_infix_block c e),
      infix_report_body hc he (caldata_infix_block c e),
      infix_report_body hc he (href_infix_block c e)⟩

/-- C6 witness: the etag of the stored event appears in the concrete REPORT
body, and there is exactly one response block. -/
theorem C6_report_unfiltered_witness :
    (("<d:getetag>\"".data ++ uuidToStr 10 ++ "\"</d:getetag>".data) <:+:
      (caldav_report wStore 7 []).body)
    ∧ (reportResponses wStore 7).length = 1 := by
  refine ⟨?_, by decide⟩
  have h := (C6_report_unfiltered wStore 7 [] "filter-body".data).2.2.2
    wCalPriv (by decide) wEv (by decide)
  exact h.1

/-- C7: PUT on an event path by the owner with a decodable body always
creates: a new event with the data-layer-assigned fresh identifier is
appended to the store (old events untouched), and the 201 response carries a
Location of the form `/calendars/{cid}/{fresh}.ics` and the quoted fresh
identifier as ETag; the URL's third segment never influences the result. -/
theorem C7_put_always_creates
    (s : Store) (uid cid : Uuid) (cal : Calendar) {seg body : Str} {ne : NewEvent}
    (hseg : ('/') ∉ seg)
    (hcal : s.get_calendar_by_id cid = some cal) (hown : cal.user_id = uid)
    (hparse : parse_icalendar body = .ok ne) :
    caldav_put s uid (eventPath cid seg) body =
      .ok (putResponse cid (s.create_event cid ne).1, (s.create_event cid ne).2)
    ∧ (s.create_event cid ne).1.id = s.freshId
    ∧ (putResponse cid (s.create_event cid ne).1).location =
        some (eventPath cid (uuidToStr s.freshId ++ icsSuffix))
    ∧ (putResponse cid (s.create_event cid ne).1).etag =
        some ('"' :: uuidToStr s.freshId ++ ['"'])
    ∧ (putResponse cid (s.create_event cid ne).1).status = 201
    ∧ (s.create_event cid ne).2.events = s.events ++ [(s.create_event cid ne).1]
    ∧ (∀ E ∈ s.events, E ∈ (s.create_event cid ne).2.events)
    ∧ (∀ seg2, ('/') ∉ seg2 →
        caldav_put s uid (eventPath cid seg2) body =
          caldav_put s uid (eventPath cid seg) body) := by
  refine ⟨caldav_put_success s uid cid cal hseg hcal hown hparse,
    rfl, ?_, rfl, rfl, rfl, ?_, ?_⟩
  · simp only [putResponse, eventPath, icsSuffix, List.append_assoc,
      List.cons_append, List.nil_append]
    rw [show (s.create_event cid ne).1.id = s.freshId from rfl]
  · intro E hE
    rw [show (s.create_event cid ne).2.events =
      s.events ++ [(s.create_event cid ne).1] from rfl]
    exact List.mem_append_left _ hE
  · intro seg2 hseg2
    rw [caldav_put_success s uid cid cal hseg2 hcal hown hparse,
      caldav_put_success s uid cid cal hseg hcal hown hparse]

/-- C7 witness: a PUT to the URL of the existing event 10 creates a new
event with the fresh identifier 50 and keeps event 10 in the store. -/
theorem C7_put_always_creates_witness :
    caldav_put wStore 7 (eventPath 1 (uuidToStr 10 ++ icsSuffix)) wBody =
      .ok (putResponse 1 (wStore.create_event 1 wNe).1, (wStore.create_event 1 wNe).2)
    ∧ (wStore.create_event 1 wNe).1.id = 50
    ∧ wEv ∈ (wStore.create_event 1 wNe).2.events := by
  have h := @C7_put_always_creates wStore 7 1 wCalPriv
    (uuidToStr 10 ++ icsSuffix) wBody wNe
    (by decide) (by decide) (by decide) (by decide)
  exact ⟨h.1, by decide, h.2.2.2.2.2.2.1 wEv (by decide)⟩

/-- C8 counterexample: with a calendar named `a<b`, the PROPFIND body is not
what §4.4's "escape every interpolated text value" prescribes — the raw
`<d:displayname>a<b</d:displayname>` appears and the escaped form does
not. -/
theorem C8_xml_escaping_counterexample :
    caldav_propfind w8Store 7 ≠ caldav_propfind_escapedSpec w8Store 7
    ∧ containsSub "<d:displayname>a<b</d:displayname>".data
        (caldav_propfind w8Store 7).body = true
    ∧ containsSub "<d:displayname>a&lt;b</d:displayname>".data
        (caldav_propfind w8Store 7).body = false := by
  decide

/-- C8 (amended): `escape_xml` is exactly the per-character five-special-
character escaping, and it is applied to the iCalendar payload embedded in
every REPORT `calendar-data` property; the PROPFIND display name, however,
is interpolated raw (unescaped). -/
theorem C8_xml_escaping_amended :
    (∀ cs : Str, escape_xml cs = cs.flatMap escCharSpec)
    ∧ (∀ (s : Store) (uid : Uuid) (b : Str), ∀ c ∈ s.get_calendars_by_user_id uid,
        ∀ e ∈ s.get_events_by_calendar_id c.id,
          ("<cal:calendar-data>".data
            ++ escape_xml (ICalendarEvent.ofEvent e).to_ical_string
            ++ "</cal:calendar-data>".data) <:+: (caldav_report s uid b).body)
    ∧ (∀ (s : Store) (uid : Uuid), ∀ c ∈ s.get_calendars_by_user_id uid,
        ("<d:displayname>".data ++ c.name ++ "</d:displayname>".data) <:+:
          (caldav_propfind s uid).body) := by
  refine ⟨escape_xml_flatMap, ?_, ?_⟩
  · intro s uid b c hc e he
    exact infix_report_body hc he (caldata_infix_block c e)
  · intro s uid c hc
    exact displayname_infix_propfind hc

/-- C8 witness: the amended escaping facts at concrete inputs. -/
theorem C8_xml_escaping_amended_witness :
    escape_xml "a<b".data = "a&lt;b".data
    ∧ (("<d:displayname>".data ++ w8Cal.name ++ "</d:displayname>".data) <:+:
        (caldav_propfind w8Store 7).body) := by
  refine ⟨?_, C8_xml_escaping_amended.2.2 w8Store 7 w8Cal (by decide)⟩
  rw [C8_xml_escaping_amended.1]
  decide

/-- C9: the encoder's output shape.  For every Event, the VEVENT block is
the CRLF-joined fixed line sequence BEGIN:VEVENT / UID / SUMMARY /
DESCRIPTION / LOCATION / DTSTART / DTEND / END:VEVENT; DESCRIPTION and
LOCATION lines are present with an empty value when the field is absent;
DTSTART/DTEND render as 16-character `YYYYMMDDTHHMMSSZ` strings; and the
projection to `ICalendarEvent` ignores the all-day flag entirely. -/
theorem C9_encoder_shape (e : Event) (flag : Bool) :
    (ICalendarEvent.ofEvent e).to_ical_string =
      joinCRLF
        ["BEGIN:VEVENT".data,
         "UID:".data ++ uuidToStr e.id,
         "SUMMARY:".data ++ escape_ical_text e.title,
         "DESCRIPTION:".data ++ (e.description.map escape_ical_text).getD [],
         "LOCATION:".data ++ (e.location.map escape_ical_text).getD [],
         "DTSTART:".data ++ formatICal e.start_time,
         "DTEND:".data ++ formatICal e.end_time,
         "END:VEVENT".data]
    ∧ ICalendarEvent.ofEvent { e with is_all_day := flag } = ICalendarEvent.ofEvent e
    ∧ (formatICal e.start_time).length = 16
    ∧ (formatICal e.start_time).getLast? = some 'Z'
    ∧ (e.description = none → (e.description.map escape_ical_text).getD [] = []) := by
  refine ⟨?_, rfl, formatICal_length _, formatICal_getLastZ _, ?_⟩
  · rw [to_ical_string_eq_joinCRLF]
    rfl
  · intro h
    rw [h]
    rfl

/-- C9 witness: the line decomposition at a concrete event with absent
description and location (empty-valued lines are still emitted). -/
theorem C9_encoder_shape_witness :
    (ICalendarEvent.ofEvent ⟨11, 1, "T".data, none, none, wDT, wDT, true, wNow,
        wNow⟩).to_ical_string =
      joinCRLF
        ["BEGIN:VEVENT".data,
         "UID:".data ++ uuidToStr 11,
         "SUMMARY:".data ++ escape_ical_text "T".data,
         "DESCRIPTION:".data,
         "LOCATION:".data,
         "DTSTART:".data ++ formatICal wDT,
         "DTEND:".data ++ formatICal wDT,
         "END:VEVENT".data] := by
  have h := (C9_encoder_shape
    ⟨11, 1, "T".data, none, none, wDT, wDT, true, wNow, wNow⟩ false).1
  simpa using h

end MyCalDAV
